import Mathlib

/-!
Verification development for the pycql2 repository: a bidirectional
translator between cql2-text and cql2-json.

The embedding below follows the two source modules:
  * `pycql2/cql2_pydantic.py`   — the AST data model (pydantic classes), the
    text emitter (`__str__` methods, `make_char_literal`) and the JSON codec
    (pydantic validation/dump of the declared types);
  * `pycql2/cql2_transformer.py` — the lark transformer that turns the parse
    tree of cql2-text into AST nodes.

Python values are embedded as follows: strings are `List Char` wrapped in
`String` where convenient, Python `float` is an opaque payload type
`PyFloat` (floats are only carried around, never computed with),
`datetime.date` and `datetime.datetime` are `PyDate` / `PyDateTime`
structures, and JSON data is the `JsonVal` inductive.  The lark grammar file
`cql2.lark` is not part of the sources; where a definition depends on it, it
is modelled from the spec and marked as such in its doc comment.
-/

namespace Pycql2

/-! ## Characters, digits and zero-padded decimal rendering -/

/-- The ASCII single-quote character, written via its code point. -/
def squote : Char := Char.ofNat 39

/-- Decimal digit character for `n % 10`. -/
def digitChar (n : Nat) : Char := Char.ofNat (48 + n % 10)

/-- Zero-padded 2-digit decimal rendering, as Python `%02d`. -/
def pad2 (n : Nat) : List Char := [digitChar (n / 10), digitChar n]

/-- Zero-padded 4-digit decimal rendering, as Python `%04d`. -/
def pad4 (n : Nat) : List Char :=
  [digitChar (n / 1000), digitChar (n / 100), digitChar (n / 10), digitChar n]

/-- Zero-padded 6-digit decimal rendering, as Python `%06d` (the `%f`
directive of `strftime` always prints six digits). -/
def pad6 (n : Nat) : List Char :=
  [digitChar (n / 100000), digitChar (n / 10000), digitChar (n / 1000),
   digitChar (n / 100), digitChar (n / 10), digitChar n]

/-- Numeric value of a decimal digit character. -/
def digitVal (c : Char) : Nat := c.toNat - 48

/-- Whether a character is a decimal digit. -/
def isDigit (c : Char) : Bool := 48 ≤ c.toNat && c.toNat ≤ 57

/-! ## Python numbers

Python distinguishes `int` and `float`; the code relies on that distinction
through pydantic's `StrictFloat` / `StrictInt` (`StrictFloatOrInt`).  Floats
are only ever carried through (the lexer produces them, the codec passes
them along), so the float payload is embedded as an opaque value with
decidable equality; no float arithmetic is modelled. -/

/-- Opaque embedding of a Python `float` value (decimal mantissa/exponent
presentation; the program never computes with floats, it only carries
them). -/
structure PyFloat where
  mant : Int
  exp : Int
  deriving DecidableEq, Repr

/-- A Python number: `int` or `float`.  JSON keeps the distinction. -/
inductive PyNum where
  | pint (i : Int)
  | pfloat (f : PyFloat)
  deriving DecidableEq, Repr

/-- Python `float(i)` applied to an int, as pydantic's lax `float` coercion
does for bbox/geometry coordinates. -/
def intToFloat (i : Int) : PyFloat := ⟨i, 0⟩

/-! ## Dates and datetimes -/

/-- Embedding of `datetime.date`. -/
structure PyDate where
  year : Nat
  month : Nat
  day : Nat
  deriving DecidableEq, Repr

/-- Embedding of `datetime.datetime`.  `tzOffset` is the UTC offset in
minutes (`none` for a naive datetime, `some 0` for UTC). -/
structure PyDateTime where
  year : Nat
  month : Nat
  day : Nat
  hour : Nat
  minute : Nat
  second : Nat
  microsecond : Nat
  tzOffset : Option Int
  deriving DecidableEq, Repr

/-- Field bounds maintained by Python's `datetime.date`. -/
def validPyDate (d : PyDate) : Bool :=
  1 ≤ d.year && d.year ≤ 9999 && 1 ≤ d.month && d.month ≤ 12 &&
    1 ≤ d.day && d.day ≤ 31

/-- Field bounds maintained by Python's `datetime.datetime` (offsets are
strictly within ±24 hours). -/
def validPyDateTime (t : PyDateTime) : Bool :=
  1 ≤ t.year && t.year ≤ 9999 && 1 ≤ t.month && t.month ≤ 12 &&
    1 ≤ t.day && t.day ≤ 31 && t.hour ≤ 23 && t.minute ≤ 59 &&
    t.second ≤ 59 && t.microsecond ≤ 999999 &&
    (match t.tzOffset with
     | none => true
     | some o => -1440 < o && o < 1440)

/-- The `YYYY-MM-DD` rendering used by `date.isoformat()` and by pydantic's
JSON serialization of `date`. -/
def formatDate (d : PyDate) : List Char :=
  pad4 d.year ++ [Char.ofNat 45] ++ pad2 d.month ++ [Char.ofNat 45] ++ pad2 d.day

/-- The `YYYY-MM-DDTHH:MM:SS` core shared by all datetime renderings. -/
def formatDTCore (t : PyDateTime) : List Char :=
  pad4 t.year ++ [Char.ofNat 45] ++ pad2 t.month ++ [Char.ofNat 45] ++ pad2 t.day ++
    [Char.ofNat 84] ++ pad2 t.hour ++ [Char.ofNat 58] ++ pad2 t.minute ++
    [Char.ofNat 58] ++ pad2 t.second

/-- The fixed `strftime("%Y-%m-%dT%H:%M:%S.%fZ")` rendering used by
`TimestampInstant.__str__` and `IntervalArrayItems.__str__`: the fractional
part is always present with exactly six digits, followed by a literal `Z`. -/
def strftimeZ (t : PyDateTime) : List Char :=
  formatDTCore t ++ [Char.ofNat 46] ++ pad6 t.microsecond ++ [Char.ofNat 90]

/-- The offset suffix pydantic emits when serializing a datetime to JSON:
nothing for naive datetimes, `Z` for UTC, `±HH:MM` otherwise. -/
def formatOffset : Option Int → List Char
  | none => []
  | some o =>
      if o = 0 then [Char.ofNat 90]
      else if 0 < o then
        [Char.ofNat 43] ++ pad2 (o.toNat / 60) ++ [Char.ofNat 58] ++ pad2 (o.toNat % 60)
      else
        [Char.ofNat 45] ++ pad2 ((-o).toNat / 60) ++ [Char.ofNat 58] ++ pad2 ((-o).toNat % 60)

/-- Pydantic's JSON serialization of a `datetime`: the ISO core, the
microseconds (omitted when zero), then the offset suffix. -/
def pydanticFormatDT (t : PyDateTime) : List Char :=
  formatDTCore t ++
    (if t.microsecond = 0 then [] else [Char.ofNat 46] ++ pad6 t.microsecond) ++
    formatOffset t.tzOffset

/-! Parsing of the same renderings, modelling pydantic's (speedate's)
validation of `date` / `datetime` fields from JSON strings.  Range checks
on the individual fields are elided (speedate performs them; no claim
depends on rejecting out-of-range digit strings). -/

/-- Read `n` at a 2-digit group. -/
def parse2 : List Char → Option Nat
  | [c1, c2] => if isDigit c1 && isDigit c2 then some (10 * digitVal c1 + digitVal c2) else none
  | _ => none

/-- Read `n` at a 4-digit group. -/
def parse4 : List Char → Option Nat
  | [c1, c2, c3, c4] =>
      if isDigit c1 && isDigit c2 && isDigit c3 && isDigit c4 then
        some (1000 * digitVal c1 + 100 * digitVal c2 + 10 * digitVal c3 + digitVal c4)
      else none
  | _ => none

/-- Read `n` at a 6-digit group. -/
def parse6 : List Char → Option Nat
  | [c1, c2, c3, c4, c5, c6] =>
      if isDigit c1 && isDigit c2 && isDigit c3 && isDigit c4 && isDigit c5 && isDigit c6 then
        some (100000 * digitVal c1 + 10000 * digitVal c2 + 1000 * digitVal c3 +
          100 * digitVal c4 + 10 * digitVal c5 + digitVal c6)
      else none
  | _ => none

/-- Parse `YYYY-MM-DD` exactly (pydantic `date` from a JSON string). -/
def parseDate (cs : List Char) : Option PyDate :=
  match cs with
  | [y1, y2, y3, y4, d1, m1, m2, d2, dd1, dd2] =>
      if d1 = Char.ofNat 45 && d2 = Char.ofNat 45 then
        match parse4 [y1, y2, y3, y4], parse2 [m1, m2], parse2 [dd1, dd2] with
        | some y, some mo, some d => some ⟨y, mo, d⟩
        | _, _, _ => none
      else none
  | _ => none

/-- Parse the optional offset suffix: empty (naive), `Z`, or `±HH:MM`. -/
def parseOffset (cs : List Char) : Option (Option Int) :=
  match cs with
  | [] => some none
  | [z] => if z = Char.ofNat 90 then some (some 0) else none
  | [sgn, h1, h2, col, m1, m2] =>
      if col = Char.ofNat 58 then
        match parse2 [h1, h2], parse2 [m1, m2] with
        | some h, some m =>
            if sgn = Char.ofNat 43 then some (some (h * 60 + m))
            else if sgn = Char.ofNat 45 then some (some (-(h * 60 + m : Int)))
            else none
        | _, _ => none
      else none
  | _ => none

/-- Parse the fraction-and-offset tail after the 19-character core: an
optional `.ffffff` (six digits, as the serializer emits) followed by the
offset suffix. -/
def parseFracOffset (cs : List Char) : Option (Nat × Option Int) :=
  match cs with
  | dot :: c1 :: c2 :: c3 :: c4 :: c5 :: c6 :: rest =>
      if dot = Char.ofNat 46 then
        match parse6 [c1, c2, c3, c4, c5, c6], parseOffset rest with
        | some micro, some off => some (micro, off)
        | _, _ => none
      else
        match parseOffset cs with
        | some off => some (0, off)
        | none => none
  | _ =>
      match parseOffset cs with
      | some off => some (0, off)
      | none => none

/-- Parse an ISO datetime string: the `YYYY-MM-DDTHH:MM:SS` core, optional
six-digit fraction, optional offset.  Models pydantic's `datetime`
validation of a JSON string; note that a non-`Z` offset and a missing
offset are both accepted. -/
def parseDT (cs : List Char) : Option PyDateTime :=
  match cs with
  | y1 :: y2 :: y3 :: y4 :: d1 :: m1 :: m2 :: d2 :: dd1 :: dd2 :: tt :: h1 :: h2 :: c1 :: mi1 :: mi2 :: c2 :: s1 :: s2 :: rest =>
      if d1 = Char.ofNat 45 && d2 = Char.ofNat 45 && tt = Char.ofNat 84 &&
          c1 = Char.ofNat 58 && c2 = Char.ofNat 58 then
        match parse4 [y1, y2, y3, y4], parse2 [m1, m2], parse2 [dd1, dd2],
            parse2 [h1, h2], parse2 [mi1, mi2], parse2 [s1, s2],
            parseFracOffset rest with
        | some y, some mo, some d, some h, some mi, some s, some (micro, off) =>
            some ⟨y, mo, d, h, mi, s, micro, off⟩
        | _, _, _, _, _, _, _ => none
      else none
  | _ => none

/-! ## Inversion lemmas for the date/datetime renderings -/

theorem digit_spec : ∀ r < 10, digitVal (Char.ofNat (48 + r)) = r ∧
    isDigit (Char.ofNat (48 + r)) = true := by decide

theorem digitVal_digitChar (m : Nat) : digitVal (digitChar m) = m % 10 := by
  have h := digit_spec (m % 10) (Nat.mod_lt _ (by omega))
  simpa [digitChar] using h.1

theorem isDigit_digitChar (m : Nat) : isDigit (digitChar m) = true := by
  have h := digit_spec (m % 10) (Nat.mod_lt _ (by omega))
  simpa [digitChar] using h.2

theorem parse2_pad2 {n : Nat} (h : n < 100) : parse2 (pad2 n) = some n := by
  simp [pad2, parse2, isDigit_digitChar, digitVal_digitChar]
  omega

theorem parse4_pad4 {n : Nat} (h : n < 10000) : parse4 (pad4 n) = some n := by
  simp [pad4, parse4, isDigit_digitChar, digitVal_digitChar]
  omega

theorem parse6_pad6 {n : Nat} (h : n < 1000000) : parse6 (pad6 n) = some n := by
  simp [pad6, parse6, isDigit_digitChar, digitVal_digitChar]
  omega

theorem parseDate_formatDate {d : PyDate} (h : validPyDate d = true) :
    parseDate (formatDate d) = some d := by
  have hy : d.year < 10000 := by simp [validPyDate] at h; omega
  have hm : d.month < 100 := by simp [validPyDate] at h; omega
  have hd : d.day < 100 := by simp [validPyDate] at h; omega
  simp [formatDate, pad4, pad2, parseDate]
  rw [show ([digitChar (d.year / 1000), digitChar (d.year / 100), digitChar (d.year / 10),
      digitChar d.year] : List Char) = pad4 d.year from rfl,
    show ([digitChar (d.month / 10), digitChar d.month] : List Char) = pad2 d.month from rfl,
    show ([digitChar (d.day / 10), digitChar d.day] : List Char) = pad2 d.day from rfl,
    parse4_pad4 hy, parse2_pad2 hm, parse2_pad2 hd]

theorem parseOffset_formatOffset {o : Option Int}
    (h : match o with | none => True | some x => -1440 < x ∧ x < 1440) :
    parseOffset (formatOffset o) = some o := by
  match o with
  | none => rfl
  | some x =>
      simp only at h
      by_cases hx0 : x = 0
      · subst hx0; rfl
      · by_cases hxp : 0 < x
        · have h60 : x.toNat / 60 < 100 := by omega
          have h60b : x.toNat % 60 < 100 := by omega
          have hrep : x.toNat / 60 * 60 + x.toNat % 60 = x.toNat := by omega
          have hcast : ((x.toNat / 60 * 60 + x.toNat % 60 : Nat) : Int) = x := by
            rw [hrep]; omega
          rw [show formatOffset (some x) =
              [Char.ofNat 43] ++ pad2 (x.toNat / 60) ++ [Char.ofNat 58] ++ pad2 (x.toNat % 60) by
            simp [formatOffset, hx0, hxp]]
          simp [pad2, parseOffset]
          rw [show ([digitChar (x.toNat / 60 / 10), digitChar (x.toNat / 60)] : List Char) =
              pad2 (x.toNat / 60) from rfl,
            show ([digitChar (x.toNat % 60 / 10), digitChar (x.toNat % 60)] : List Char) =
              pad2 (x.toNat % 60) from rfl, parse2_pad2 h60, parse2_pad2 h60b]
          simp
          omega
        · have h60 : (-x).toNat / 60 < 100 := by omega
          have h60b : (-x).toNat % 60 < 100 := by omega
          have hrep : (-x).toNat / 60 * 60 + (-x).toNat % 60 = (-x).toNat := by omega
          rw [show formatOffset (some x) =
              [Char.ofNat 45] ++ pad2 ((-x).toNat / 60) ++ [Char.ofNat 58] ++
                pad2 ((-x).toNat % 60) by
            simp [formatOffset, hx0, hxp]]
          simp [pad2, parseOffset]
          rw [show ([digitChar ((-x).toNat / 60 / 10), digitChar ((-x).toNat / 60)] : List Char) =
              pad2 ((-x).toNat / 60) from rfl,
            show ([digitChar ((-x).toNat % 60 / 10), digitChar ((-x).toNat % 60)] : List Char) =
              pad2 ((-x).toNat % 60) from rfl, parse2_pad2 h60, parse2_pad2 h60b]
          simp
          omega

theorem formatOffset_length_le (o : Option Int) : (formatOffset o).length ≤ 6 := by
  match o with
  | none => simp [formatOffset]
  | some x =>
      by_cases hx0 : x = 0
      · simp [formatOffset, hx0]
      · by_cases hxp : 0 < x
        · simp [formatOffset, hx0, hxp, pad2]
        · simp [formatOffset, hx0, hxp, pad2]

theorem parseFracOffset_short (cs : List Char) (h : cs.length ≤ 6) :
    parseFracOffset cs =
      match parseOffset cs with
      | some off => some ((0 : Nat), off)
      | none => none := by
  match cs with
  | [] => rfl
  | [_] => rfl
  | [_, _] => rfl
  | [_, _, _] => rfl
  | [_, _, _, _] => rfl
  | [_, _, _, _, _] => rfl
  | [_, _, _, _, _, _] => rfl
  | _ :: _ :: _ :: _ :: _ :: _ :: _ :: _ => simp at h

theorem parseFracOffset_format {micro : Nat} {off : Option Int} (hm : micro < 1000000)
    (ho : match off with | none => True | some x => -1440 < x ∧ x < 1440) :
    parseFracOffset
      ((if micro = 0 then [] else Char.ofNat 46 :: pad6 micro) ++ formatOffset off) =
      some (micro, off) := by
  by_cases hz : micro = 0
  · subst hz
    rw [show (if (0 : Nat) = 0 then ([] : List Char) else Char.ofNat 46 :: pad6 0) ++
        formatOffset off = formatOffset off by simp]
    rw [parseFracOffset_short _ (formatOffset_length_le off), parseOffset_formatOffset ho]
  · rw [if_neg hz]
    simp only [pad6, List.cons_append, List.append_assoc, parseFracOffset,
      List.nil_append]
    rw [if_true]
    rw [show ([digitChar (micro / 100000), digitChar (micro / 10000), digitChar (micro / 1000),
        digitChar (micro / 100), digitChar (micro / 10), digitChar micro] : List Char) =
        pad6 micro from rfl, parse6_pad6 hm, parseOffset_formatOffset ho]

theorem parseDT_pydanticFormatDT {t : PyDateTime} (h : validPyDateTime t = true) :
    parseDT (pydanticFormatDT t) = some t := by
  have hy : t.year < 10000 := by simp [validPyDateTime] at h; omega
  have hmo : t.month < 100 := by simp [validPyDateTime] at h; omega
  have hd : t.day < 100 := by simp [validPyDateTime] at h; omega
  have hh : t.hour < 100 := by simp [validPyDateTime] at h; omega
  have hmi : t.minute < 100 := by simp [validPyDateTime] at h; omega
  have hs : t.second < 100 := by simp [validPyDateTime] at h; omega
  have hmic : t.microsecond < 1000000 := by simp [validPyDateTime] at h; omega
  have hoff : match t.tzOffset with | none => True | some x => -1440 < x ∧ x < 1440 := by
    match hto : t.tzOffset with
    | none => trivial
    | some x =>
        simp [validPyDateTime, hto] at h
        exact ⟨by omega, by omega⟩
  simp only [pydanticFormatDT, formatDTCore, pad4, pad2, List.cons_append,
    List.append_assoc, List.nil_append, parseDT]
  rw [if_pos (by simp)]
  rw [show ([digitChar (t.year / 1000), digitChar (t.year / 100), digitChar (t.year / 10),
      digitChar t.year] : List Char) = pad4 t.year from rfl, parse4_pad4 hy,
    show ([digitChar (t.month / 10), digitChar t.month] : List Char) = pad2 t.month from rfl,
    parse2_pad2 hmo,
    show ([digitChar (t.day / 10), digitChar t.day] : List Char) = pad2 t.day from rfl,
    parse2_pad2 hd,
    show ([digitChar (t.hour / 10), digitChar t.hour] : List Char) = pad2 t.hour from rfl,
    parse2_pad2 hh,
    show ([digitChar (t.minute / 10), digitChar t.minute] : List Char) = pad2 t.minute from rfl,
    parse2_pad2 hmi,
    show ([digitChar (t.second / 10), digitChar t.second] : List Char) = pad2 t.second from rfl,
    parse2_pad2 hs]
  rw [parseFracOffset_format hmic hoff]

/-! ## JSON values

Structured JSON data, as produced by `model_dump(mode="json")` and consumed
by `model_validate`.  Numbers keep the Python `int` / `float` distinction
(`PyNum`), which is what `StrictFloat` / `StrictInt` discriminate on. -/

/-- A structured JSON value. -/
inductive JsonVal where
  | null
  | bool (b : Bool)
  | num (n : PyNum)
  | str (s : String)
  | arr (xs : List JsonVal)
  | obj (kvs : List (String × JsonVal))

/-! ## Operator enumerations (from `cql2_pydantic.py`) -/

/-- The `op` literals of `BinaryComparisonPredicate`. -/
inductive CmpOp where
  | eq | neq | lt | lteq | gt | gteq
  deriving DecidableEq, Repr

/-- The comparison operator's string form. -/
def CmpOp.toStr : CmpOp → String
  | .eq => "="
  | .neq => "<>"
  | .lt => "<"
  | .lteq => "<="
  | .gt => ">"
  | .gteq => ">="

/-- Lookup of a comparison operator by its literal. -/
def CmpOp.ofStr (s : String) : Option CmpOp :=
  if s = "=" then some .eq
  else if s = "<>" then some .neq
  else if s = "<" then some .lt
  else if s = "<=" then some .lteq
  else if s = ">" then some .gt
  else if s = ">=" then some .gteq
  else none

/-- The `op` literals of `AndOrExpression`. -/
inductive AndOrOp where
  | and | or
  deriving DecidableEq, Repr

/-- The and/or operator's string form. -/
def AndOrOp.toStr : AndOrOp → String
  | .and => "and"
  | .or => "or"

/-- The `op` literals of `ArithmeticExpression`. -/
inductive ArithOp where
  | add | sub | mul | quot | pow | mod | intDiv
  deriving DecidableEq, Repr

/-- The arithmetic operator's string form. -/
def ArithOp.toStr : ArithOp → String
  | .add => "+"
  | .sub => "-"
  | .mul => "*"
  | .quot => "/"
  | .pow => "^"
  | .mod => "%"
  | .intDiv => "div"

/-- Lookup of an arithmetic operator by its literal. -/
def ArithOp.ofStr (s : String) : Option ArithOp :=
  if s = "+" then some .add
  else if s = "-" then some .sub
  else if s = "*" then some .mul
  else if s = "/" then some .quot
  else if s = "^" then some .pow
  else if s = "%" then some .mod
  else if s = "div" then some .intDiv
  else none

/-- The `SpatialOperator` enumeration. -/
inductive SpatialOp where
  | sContains | sCrosses | sDisjoint | sEquals | sIntersects | sOverlaps
  | sTouches | sWithin
  deriving DecidableEq, Repr

/-- The spatial operator's enumeration value string. -/
def SpatialOp.toStr : SpatialOp → String
  | .sContains => "s_contains"
  | .sCrosses => "s_crosses"
  | .sDisjoint => "s_disjoint"
  | .sEquals => "s_equals"
  | .sIntersects => "s_intersects"
  | .sOverlaps => "s_overlaps"
  | .sTouches => "s_touches"
  | .sWithin => "s_within"

/-- Lookup of a `SpatialOperator` by its value string, as `SpatialOperator(s)`. -/
def SpatialOp.ofStr (s : String) : Option SpatialOp :=
  if s = "s_contains" then some .sContains
  else if s = "s_crosses" then some .sCrosses
  else if s = "s_disjoint" then some .sDisjoint
  else if s = "s_equals" then some .sEquals
  else if s = "s_intersects" then some .sIntersects
  else if s = "s_overlaps" then some .sOverlaps
  else if s = "s_touches" then some .sTouches
  else if s = "s_within" then some .sWithin
  else none

/-- The `TemporalOperator` enumeration. -/
inductive TemporalOp where
  | tAfter | tBefore | tContains | tDisjoint | tDuring | tEquals
  | tFinishedBy | tFinishes | tIntersects | tMeets | tMetBy
  | tOverlappedBy | tOverlaps | tStartedBy | tStarts
  deriving DecidableEq, Repr

/-- The temporal operator's enumeration value string. -/
def TemporalOp.toStr : TemporalOp → String
  | .tAfter => "t_after"
  | .tBefore => "t_before"
  | .tContains => "t_contains"
  | .tDisjoint => "t_disjoint"
  | .tDuring => "t_during"
  | .tEquals => "t_equals"
  | .tFinishedBy => "t_finishedBy"
  | .tFinishes => "t_finishes"
  | .tIntersects => "t_intersects"
  | .tMeets => "t_meets"
  | .tMetBy => "t_metBy"
  | .tOverlappedBy => "t_overlappedBy"
  | .tOverlaps => "t_overlaps"
  | .tStartedBy => "t_startedBy"
  | .tStarts => "t_starts"

/-- Lookup of a `TemporalOperator` by its value string, as `TemporalOperator(s)`. -/
def TemporalOp.ofStr (s : String) : Option TemporalOp :=
  if s = "t_after" then some .tAfter
  else if s = "t_before" then some .tBefore
  else if s = "t_contains" then some .tContains
  else if s = "t_disjoint" then some .tDisjoint
  else if s = "t_during" then some .tDuring
  else if s = "t_equals" then some .tEquals
  else if s = "t_finishedBy" then some .tFinishedBy
  else if s = "t_finishes" then some .tFinishes
  else if s = "t_intersects" then some .tIntersects
  else if s = "t_meets" then some .tMeets
  else if s = "t_metBy" then some .tMetBy
  else if s = "t_overlappedBy" then some .tOverlappedBy
  else if s = "t_overlaps" then some .tOverlaps
  else if s = "t_startedBy" then some .tStartedBy
  else if s = "t_starts" then some .tStarts
  else none

/-- The `ArrayOperator` enumeration. -/
inductive ArrayOp where
  | aContainedBy | aContains | aEquals | aOverlaps
  deriving DecidableEq, Repr

/-- The array operator's enumeration value string. -/
def ArrayOp.toStr : ArrayOp → String
  | .aContainedBy => "a_containedBy"
  | .aContains => "a_contains"
  | .aEquals => "a_equals"
  | .aOverlaps => "a_overlaps"

/-- Lookup of an `ArrayOperator` by its value string, as `ArrayOperator(s)`. -/
def ArrayOp.ofStr (s : String) : Option ArrayOp :=
  if s = "a_containedBy" then some .aContainedBy
  else if s = "a_contains" then some .aContains
  else if s = "a_equals" then some .aEquals
  else if s = "a_overlaps" then some .aOverlaps
  else none

/-! ## The AST

One constructor per pydantic class of `cql2_pydantic.py`.  The `RootModel`
wrappers (`BooleanExpression`, `CharacterExpression`, `PatternExpression`,
`IntervalArrayItems`) are explicit constructors: in Python a wrapped value
and its bare payload are distinct objects that compare unequal, and that
distinction is exactly what the JSON round-trip claim is about.  `Function`
is collapsed into `functionRef` (a `Function` never occurs outside a
`FunctionRef`); the nested `{"function": {"name": …, "args": …}}` JSON
shape is preserved by the codec.  Geometry is the out-of-scope GeoJSON
collaborator and is carried as its (validated) JSON value. -/

/-- A CQL2 AST node. -/
inductive Expr where
  | boolLit (b : Bool)
  | andOr (op : AndOrOp) (args : List Expr)
  | notE (arg : Expr)
  | binCmp (op : CmpOp) (a b : Expr)
  | isLike (a b : Expr)
  | isBetween (a b c : Expr)
  | isInList (a : Expr) (list : List Expr)
  | isNull (a : Expr)
  | spatialPred (op : SpatialOp) (a b : Expr)
  | temporalPred (op : TemporalOp) (a b : Expr)
  | arrayPred (op : ArrayOp) (args : Expr)
  | arrayExpr (a b : Expr)
  | arrayLit (elems : List Expr)
  | boolExpr (root : Expr)
  | charExpr (root : Expr)
  | patternExpr (root : Expr)
  | casei (inner : Expr)
  | accenti (inner : Expr)
  | arith (op : ArithOp) (a b : Expr)
  | numLit (n : PyNum)
  | strLit (s : String)
  | propertyRef (name : String)
  | functionRef (name : String) (args : Option (List Expr))
  | dateInstant (d : PyDate)
  | timestampInstant (t : PyDateTime)
  | intervalInst (a b : Expr)
  | intervalItem (v : Expr)
  | pyDT (t : PyDateTime)
  | pyDate (d : PyDate)
  | dotdot
  | bboxLit (coords : List PyNum)
  | geometry (g : JsonVal)

/-! ## The JSON encoder

`model_dump(mode="json")` of the pydantic AST.  A `RootModel` dumps as its
root, a `BaseModel` dumps as an object with one key per declared field in
declaration order, tuples dump as arrays, `None` dumps as `null`, dates and
datetimes dump as their ISO strings. -/

/-- The `..` marker string. -/
def dotdotStr : String := String.mk [Char.ofNat 46, Char.ofNat 46]

mutual

/-- JSON encoding of an AST node (`model_dump(mode="json")`). -/
def encode : Expr → JsonVal
  | .boolLit b => .bool b
  | .andOr op args => .obj [("op", .str op.toStr), ("args", .arr (encodeList args))]
  | .notE a => .obj [("op", .str "not"), ("args", .arr [encode a])]
  | .binCmp op a b => .obj [("op", .str op.toStr), ("args", .arr [encode a, encode b])]
  | .isLike a b => .obj [("op", .str "like"), ("args", .arr [encode a, encode b])]
  | .isBetween a b c =>
      .obj [("op", .str "between"), ("args", .arr [encode a, encode b, encode c])]
  | .isInList a l =>
      .obj [("op", .str "in"), ("args", .arr [encode a, .arr (encodeList l)])]
  | .isNull a => .obj [("op", .str "isNull"), ("args", encode a)]
  | .spatialPred op a b =>
      .obj [("op", .str op.toStr), ("args", .arr [encode a, encode b])]
  | .temporalPred op a b =>
      .obj [("op", .str op.toStr), ("args", .arr [encode a, encode b])]
  | .arrayPred op args => .obj [("op", .str op.toStr), ("args", encode args)]
  | .arrayExpr a b => .obj [("root", .arr [encode a, encode b])]
  | .arrayLit xs => .arr (encodeList xs)
  | .boolExpr r => encode r
  | .charExpr r => encode r
  | .patternExpr r => encode r
  | .casei x => .obj [("casei", encode x)]
  | .accenti x => .obj [("accenti", encode x)]
  | .arith op a b => .obj [("op", .str op.toStr), ("args", .arr [encode a, encode b])]
  | .numLit n => .num n
  | .strLit s => .str s
  | .propertyRef p => .obj [("property", .str p)]
  | .functionRef nm none =>
      .obj [("function", .obj [("name", .str nm), ("args", .null)])]
  | .functionRef nm (some xs) =>
      .obj [("function", .obj [("name", .str nm), ("args", .arr (encodeList xs))])]
  | .dateInstant d => .obj [("date", .str (String.mk (formatDate d)))]
  | .timestampInstant t => .obj [("timestamp", .str (String.mk (pydanticFormatDT t)))]
  | .intervalInst a b => .obj [("interval", .arr [encode a, encode b])]
  | .intervalItem v => encode v
  | .pyDT t => .str (String.mk (pydanticFormatDT t))
  | .pyDate d => .str (String.mk (formatDate d))
  | .dotdot => .str dotdotStr
  | .bboxLit ns => .obj [("bbox", .arr (ns.map JsonVal.num))]
  | .geometry g => g

/-- Elementwise JSON encoding of a list of AST nodes. -/
def encodeList : List Expr → List JsonVal
  | [] => []
  | e :: es => encode e :: encodeList es

end


/-! ## The JSON decoder

`model_validate` of the pydantic AST types, one decoding function per type
annotation.  A `Union` is resolved to its flattened member list (Python's
`typing` flattens nested unions and removes duplicates, keeping first
occurrences) and tried left-to-right; the members have pairwise distinct
JSON shapes except where noted in the comments.  `Strict*` fields refuse
coercions: `StrictFloat`/`StrictInt` reject booleans, `StrictStr` rejects
numbers and booleans.  The decoders are defined against the canonical
one-key / two-key object layouts produced by `model_dump` and used by the
OGC schema (pydantic additionally tolerates reordered and extra object
keys; no claim depends on such inputs). -/

/-- The WKT-backed GeoJSON geometry type names. -/
def geomTypeOk (t : String) : Bool :=
  t = "Point" || t = "LineString" || t = "Polygon" || t = "MultiPoint" ||
    t = "MultiLineString" || t = "MultiPolygon"

/-- Modelled from the spec: the GeoJSON geometry collaborator
(`geojson_pydantic`, not part of the sources) validates an object carrying
`type` and `coordinates` (a geometry) or `type = "GeometryCollection"` and
`geometries`.  The validated geometry is carried as its JSON value. -/
def decodeGeomLit (v : JsonVal) : Option Expr :=
  match v with
  | .obj [("type", .str t), ("coordinates", .arr cs)] =>
      if geomTypeOk t then
        some (.geometry (.obj [("type", .str t), ("coordinates", .arr cs)]))
      else none
  | .obj [("type", .str t), ("geometries", .arr gs)] =>
      if t = "GeometryCollection" then
        some (.geometry (.obj [("type", .str t), ("geometries", .arr gs)]))
      else none
  | _ => none

/-- Modelled from the spec: bounding-box values are numbers (the pydantic
`BBox` collaborator type; integers are coerced to floats by its lax
`float` fields). -/
def decodeBboxNums : List JsonVal → Option (List PyNum)
  | [] => some []
  | .num (.pint i) :: rest => (decodeBboxNums rest).map (.pfloat (intToFloat i) :: ·)
  | .num (.pfloat f) :: rest => (decodeBboxNums rest).map (.pfloat f :: ·)
  | _ => none

/-- Decoding of `BboxLiteral` from its object shape (4- or 6-element list). -/
def decodeBbox (xs : List JsonVal) : Option Expr :=
  match decodeBboxNums xs with
  | some ns => if ns.length = 4 || ns.length = 6 then some (.bboxLit ns) else none
  | none => none

/-- The `bbox` field: a 4- or 6-element list of numbers. -/
def decodeBboxVal (x : JsonVal) : Option Expr :=
  match x with
  | .arr xs => decodeBbox xs
  | _ => none

/-- Extraction of a JSON string (pydantic `StrictStr`: numbers and
booleans are refused). -/
def asStr : JsonVal → Option String
  | .str s => some s
  | _ => none

/-- The string member of `IntervalArrayItems`: pydantic tries `datetime`
before `date`, then the literal `".."`.  A datetime string with any offset
(or none) is accepted. -/
def decodeIntervalStr (s : String) : Option Expr :=
  match parseDT s.data with
  | some t => some (.intervalItem (.pyDT t))
  | none =>
      match parseDate s.data with
      | some d => some (.intervalItem (.pyDate d))
      | none => if s = dotdotStr then some (.intervalItem .dotdot) else none

set_option maxHeartbeats 1600000 in
mutual

/-- `BooleanExpression` (a RootModel): its root is `BooleanExpressionItems`,
a union of the `op`-discriminated nodes and `StrictBool`; the result is
wrapped. -/
def decodeBeW (v : JsonVal) : Option Expr :=
  match v with
  | .bool b => some (.boolExpr (.boolLit b))
  | .obj [(k1, x1), (k2, x2)] =>
      if k1 = "op" && k2 = "args" then
        (asStr x1).bind fun op => (decodeBoolNode op x2).map .boolExpr
      else none
  | _ => none
termination_by 2 * sizeOf v
decreasing_by all_goals (simp_wf; try omega)

/-- `ScalarExpression`, flattened to `[DateInstant, TimestampInstant,
PropertyRef, FunctionRef, BooleanExpression, CharacterExpression,
ArithmeticExpression, StrictFloat, StrictInt]`.  A bare property or
function object is reached before the `CharacterExpression` member, so it
decodes unwrapped here. -/
def decodeScalar (v : JsonVal) : Option Expr :=
  match v with
  | .bool b => some (.boolExpr (.boolLit b))
  | .num n => some (.numLit n)
  | .str s => some (.charExpr (.strLit s))
  | .obj [(k, x)] => decodeScalarKey k x
  | .obj [(k1, x1), (k2, x2)] =>
      if k1 = "op" && k2 = "args" then
        (asStr x1).bind fun op =>
          ((decodeBoolNode op x2).map .boolExpr) <|> decodeArithNode op x2
      else none
  | _ => none
termination_by 2 * sizeOf v
decreasing_by all_goals (simp_wf; try omega)

/-- The one-key object members of `ScalarExpression`, in union order. -/
def decodeScalarKey (k : String) (x : JsonVal) : Option Expr :=
  if k = "date" then (asStr x).bind fun s => (parseDate s.data).map .dateInstant
  else if k = "timestamp" then
    (asStr x).bind fun s => (parseDT s.data).map .timestampInstant
  else if k = "property" then (asStr x).map .propertyRef
  else if k = "function" then decodeFunction x
  else if k = "casei" then (decodeCharW x).map (fun e => .charExpr (.casei e))
  else if k = "accenti" then (decodeCharW x).map (fun e => .charExpr (.accenti e))
  else none
termination_by 2 * sizeOf x + 1
decreasing_by all_goals (simp_wf; try omega)

/-- `NumericExpression` and `ArithmeticOperandsItems` (the same flattened
member set `[ArithmeticExpression, StrictFloat, StrictInt, PropertyRef,
FunctionRef]`, in orders that agree on every input shape). -/
def decodeNumericE (v : JsonVal) : Option Expr :=
  match v with
  | .num n => some (.numLit n)
  | .obj [(k, x)] =>
      if k = "property" then (asStr x).map .propertyRef
      else if k = "function" then decodeFunction x
      else none
  | .obj [(k1, x1), (k2, x2)] =>
      if k1 = "op" && k2 = "args" then
        (asStr x1).bind fun op => decodeArithNode op x2
      else none
  | _ => none
termination_by 2 * sizeOf v
decreasing_by all_goals (simp_wf; try omega)

/-- `CharacterExpression` (a RootModel over `CharacterExpressionItems =
[Casei, Accenti, StrictStr, PropertyRef, FunctionRef]`); the result is
wrapped. -/
def decodeCharW (v : JsonVal) : Option Expr :=
  match v with
  | .str s => some (.charExpr (.strLit s))
  | .obj [(k, x)] => decodeCharKey k x
  | _ => none
termination_by 2 * sizeOf v
decreasing_by all_goals (simp_wf; try omega)

/-- The one-key object members of `CharacterExpressionItems`. -/
def decodeCharKey (k : String) (x : JsonVal) : Option Expr :=
  if k = "casei" then (decodeCharW x).map (fun e => .charExpr (.casei e))
  else if k = "accenti" then (decodeCharW x).map (fun e => .charExpr (.accenti e))
  else if k = "property" then (asStr x).map (fun p => .charExpr (.propertyRef p))
  else if k = "function" then (decodeFunction x).map .charExpr
  else none
termination_by 2 * sizeOf x + 1
decreasing_by all_goals (simp_wf; try omega)

/-- `PatternExpression` (a RootModel over `[Casei, Accenti, StrictStr]`;
no property/function members); the result is wrapped. -/
def decodePatternW (v : JsonVal) : Option Expr :=
  match v with
  | .str s => some (.patternExpr (.strLit s))
  | .obj [(k, x)] =>
      if k = "casei" then (decodePatternW x).map (fun e => .patternExpr (.casei e))
      else if k = "accenti" then
        (decodePatternW x).map (fun e => .patternExpr (.accenti e))
      else none
  | _ => none
termination_by 2 * sizeOf v
decreasing_by all_goals (simp_wf; try omega)

/-- `IsNullOperand`, flattened to `[CharacterExpression,
ArithmeticExpression, StrictFloat, StrictInt, PropertyRef, FunctionRef,
DateInstant, TimestampInstant, IntervalInstance, BooleanExpression,
GeometryLiteral, BboxLiteral]`.  `CharacterExpression` comes first, so a
property or function object decodes wrapped in it. -/
def decodeIsNullOp (v : JsonVal) : Option Expr :=
  match v with
  | .str s => some (.charExpr (.strLit s))
  | .num n => some (.numLit n)
  | .bool b => some (.boolExpr (.boolLit b))
  | .obj [(k, x)] => decodeIsNullKey k x
  | .obj [(k1, x1), (k2, x2)] =>
      if k1 = "op" && k2 = "args" then
        (asStr x1).bind fun op =>
          decodeArithNode op x2 <|> (decodeBoolNode op x2).map .boolExpr
      else decodeGeomLit (.obj [(k1, x1), (k2, x2)])
  | _ => none
termination_by 2 * sizeOf v
decreasing_by all_goals (simp_wf; try omega)

/-- The one-key object members of `IsNullOperand`, in flattened union
order: the `CharacterExpression` keys first, then the temporal and
spatial literal keys. -/
def decodeIsNullKey (k : String) (x : JsonVal) : Option Expr :=
  if k = "casei" then (decodeCharW x).map (fun e => .charExpr (.casei e))
  else if k = "accenti" then (decodeCharW x).map (fun e => .charExpr (.accenti e))
  else if k = "property" then (asStr x).map (fun p => .charExpr (.propertyRef p))
  else if k = "function" then (decodeFunction x).map .charExpr
  else if k = "date" then (asStr x).bind fun s => (parseDate s.data).map .dateInstant
  else if k = "timestamp" then
    (asStr x).bind fun s => (parseDT s.data).map .timestampInstant
  else if k = "interval" then decodeIntervalPair x
  else if k = "bbox" then decodeBboxVal x
  else none
termination_by 2 * sizeOf x + 1
decreasing_by all_goals (simp_wf; try omega)

/-- `TemporalExpression`: `[DateInstant, TimestampInstant,
IntervalInstance, PropertyRef, FunctionRef]`. -/
def decodeTemporalE (v : JsonVal) : Option Expr :=
  match v with
  | .obj [(k, x)] => decodeTemporalKey k x
  | _ => none
termination_by 2 * sizeOf v
decreasing_by all_goals (simp_wf; try omega)

/-- The one-key object members of `TemporalExpression`. -/
def decodeTemporalKey (k : String) (x : JsonVal) : Option Expr :=
  if k = "date" then (asStr x).bind fun s => (parseDate s.data).map .dateInstant
  else if k = "timestamp" then
    (asStr x).bind fun s => (parseDT s.data).map .timestampInstant
  else if k = "interval" then decodeIntervalPair x
  else if k = "property" then (asStr x).map .propertyRef
  else if k = "function" then decodeFunction x
  else none
termination_by 2 * sizeOf x + 1
decreasing_by all_goals (simp_wf; try omega)

/-- `GeomExpression`: `[GeometryLiteral, BboxLiteral, PropertyRef,
FunctionRef]`. -/
def decodeGeomE (v : JsonVal) : Option Expr :=
  match v with
  | .obj [(k, x)] =>
      if k = "bbox" then decodeBboxVal x
      else if k = "property" then (asStr x).map .propertyRef
      else if k = "function" then decodeFunction x
      else none
  | .obj [(k1, x1), (k2, x2)] => decodeGeomLit (.obj [(k1, x1), (k2, x2)])
  | _ => none
termination_by 2 * sizeOf v
decreasing_by all_goals (simp_wf; try omega)

/-- `ArrayElement` (also the element type of `FunctionArguments`),
flattened to `[CharacterExpression, ArithmeticExpression, StrictFloat,
StrictInt, PropertyRef, FunctionRef, BooleanExpression, GeometryLiteral,
BboxLiteral, DateInstant, TimestampInstant, IntervalInstance, Array]`.
As in `IsNullOperand`, property/function objects decode wrapped in
`CharacterExpression`. -/
def decodeArrayElem (v : JsonVal) : Option Expr :=
  match v with
  | .str s => some (.charExpr (.strLit s))
  | .num n => some (.numLit n)
  | .bool b => some (.boolExpr (.boolLit b))
  | .arr xs => (decodeListArrayElem xs).map .arrayLit
  | .obj [(k, x)] => decodeIsNullKey k x
  | .obj [(k1, x1), (k2, x2)] =>
      if k1 = "op" && k2 = "args" then
        (asStr x1).bind fun op =>
          decodeArithNode op x2 <|> (decodeBoolNode op x2).map .boolExpr
      else decodeGeomLit (.obj [(k1, x1), (k2, x2)])
  | _ => none
termination_by 2 * sizeOf v
decreasing_by all_goals (simp_wf; try omega)

/-- `ArrayExpressionItems`: `[Array, PropertyRef, FunctionRef]` — bare
property/function members (no `CharacterExpression` in this union). -/
def decodeArrayItems (v : JsonVal) : Option Expr :=
  match v with
  | .arr xs => (decodeListArrayElem xs).map .arrayLit
  | .obj [(k, x)] =>
      if k = "property" then (asStr x).map .propertyRef
      else if k = "function" then decodeFunction x
      else none
  | _ => none
termination_by 2 * sizeOf v
decreasing_by all_goals (simp_wf; try omega)

/-- `ArrayExpression` with its `model_validator(mode="wrap")`: a 2-element
sequence is accepted directly, anything else goes through standard
validation of the `root` field. -/
def decodeArrayExprC (v : JsonVal) : Option Expr :=
  match v with
  | .arr [a, b] => do
      let ea ← decodeArrayItems a
      let eb ← decodeArrayItems b
      some (.arrayExpr ea eb)
  | .obj [(k, x)] =>
      if k = "root" then
        match x with
        | .arr [a, b] => do
            let ea ← decodeArrayItems a
            let eb ← decodeArrayItems b
            some (.arrayExpr ea eb)
        | _ => none
      else none
  | _ => none
termination_by 2 * sizeOf v
decreasing_by all_goals (simp_wf; try omega)

/-- `IntervalArrayItems` (a RootModel over `[datetime, date, "..",
PropertyRef, FunctionRef]`). -/
def decodeIntervalItem (v : JsonVal) : Option Expr :=
  match v with
  | .str s => decodeIntervalStr s
  | .obj [(k, x)] =>
      if k = "property" then (asStr x).map (fun p => .intervalItem (.propertyRef p))
      else if k = "function" then (decodeFunction x).map .intervalItem
      else none
  | _ => none
termination_by 2 * sizeOf v
decreasing_by all_goals (simp_wf; try omega)

/-- The `interval` field of `IntervalInstance`: a pair of
`IntervalArrayItems`. -/
def decodeIntervalPair (x : JsonVal) : Option Expr :=
  match x with
  | .arr [a, b] => do
      let ia ← decodeIntervalItem a
      let ib ← decodeIntervalItem b
      some (.intervalInst ia ib)
  | _ => none
termination_by 2 * sizeOf x
decreasing_by all_goals (simp_wf; try omega)

/-- The `op`-discriminated members of `BooleanExpressionItems`, given the
already-extracted `op` literal and `args` value, tried in the union order
`[AndOr, Not, BinaryComparison, IsLike, IsBetween, IsInList, IsNull,
Spatial, Temporal, Array]` (the `op` literals are pairwise disjoint). -/
def decodeBoolNode (op : String) (args : JsonVal) : Option Expr :=
  if op = "and" || op = "or" then decodeAndOrNode op args
  else if op = "not" then decodeNotNode args
  else
    match CmpOp.ofStr op with
    | some c => decodeCmpNode c args
    | none =>
        if op = "like" then decodeLikeNode args
        else if op = "between" then decodeBetweenNode args
        else if op = "in" then decodeInNode args
        else if op = "isNull" then (decodeIsNullOp args).map .isNull
        else
          match SpatialOp.ofStr op with
          | some so => decodeSpatialNode so args
          | none =>
              match TemporalOp.ofStr op with
              | some to_ => decodeTemporalNode to_ args
              | none =>
                  match ArrayOp.ofStr op with
                  | some ao => (decodeArrayExprC args).map (.arrayPred ao)
                  | none => none
termination_by 2 * sizeOf args + 2
decreasing_by all_goals (simp_wf; try omega)

/-- `AndOrExpression`: `args` is a `List[BooleanExpression]` with
`min_length=2` (`BooleanExpressionList`). -/
def decodeAndOrNode (op : String) (args : JsonVal) : Option Expr :=
  match args with
  | .arr xs => do
      let es ← decodeListBeW xs
      if 2 ≤ es.length then
        some (.andOr (if op = "and" then .and else .or) es)
      else none
  | _ => none
termination_by 2 * sizeOf args + 1
decreasing_by all_goals (simp_wf; try omega)

/-- `NotExpression`: `args` is a 1-tuple of `BooleanExpression`. -/
def decodeNotNode (args : JsonVal) : Option Expr :=
  match args with
  | .arr [x] => (decodeBeW x).map .notE
  | _ => none
termination_by 2 * sizeOf args + 1
decreasing_by all_goals (simp_wf; try omega)

/-- `BinaryComparisonPredicate`: a pair of `ScalarExpression`s. -/
def decodeCmpNode (c : CmpOp) (args : JsonVal) : Option Expr :=
  match args with
  | .arr [a, b] => do
      let ea ← decodeScalar a
      let eb ← decodeScalar b
      some (.binCmp c ea eb)
  | _ => none
termination_by 2 * sizeOf args + 1
decreasing_by all_goals (simp_wf; try omega)

/-- `IsLikePredicate`: a `CharacterExpression` and a `PatternExpression`. -/
def decodeLikeNode (args : JsonVal) : Option Expr :=
  match args with
  | .arr [a, b] => do
      let ea ← decodeCharW a
      let eb ← decodePatternW b
      some (.isLike ea eb)
  | _ => none
termination_by 2 * sizeOf args + 1
decreasing_by all_goals (simp_wf; try omega)

/-- `IsBetweenPredicate`: three `NumericExpression`s. -/
def decodeBetweenNode (args : JsonVal) : Option Expr :=
  match args with
  | .arr [a, b, c] => do
      let ea ← decodeNumericE a
      let eb ← decodeNumericE b
      let ec ← decodeNumericE c
      some (.isBetween ea eb ec)
  | _ => none
termination_by 2 * sizeOf args + 1
decreasing_by all_goals (simp_wf; try omega)

/-- `IsInListPredicate`: a `ScalarExpression` and a plain
`List[ScalarExpression]` (note: no minimum length on the list). -/
def decodeInNode (args : JsonVal) : Option Expr :=
  match args with
  | .arr [a, lv] =>
      (match lv with
       | .arr xs => do
           let ea ← decodeScalar a
           let es ← decodeListScalar xs
           some (.isInList ea es)
       | _ => none)
  | _ => none
termination_by 2 * sizeOf args + 1
decreasing_by all_goals (simp_wf; try omega)

/-- `SpatialPredicate`: a pair of `GeomExpression`s. -/
def decodeSpatialNode (so : SpatialOp) (args : JsonVal) : Option Expr :=
  match args with
  | .arr [a, b] => do
      let ea ← decodeGeomE a
      let eb ← decodeGeomE b
      some (.spatialPred so ea eb)
  | _ => none
termination_by 2 * sizeOf args + 1
decreasing_by all_goals (simp_wf; try omega)

/-- `TemporalPredicate`: a pair of `TemporalExpression`s. -/
def decodeTemporalNode (to_ : TemporalOp) (args : JsonVal) : Option Expr :=
  match args with
  | .arr [a, b] => do
      let ea ← decodeTemporalE a
      let eb ← decodeTemporalE b
      some (.temporalPred to_ ea eb)
  | _ => none
termination_by 2 * sizeOf args + 1
decreasing_by all_goals (simp_wf; try omega)

/-- `ArithmeticExpression` from its extracted `op` and `args`. -/
def decodeArithNode (op : String) (args : JsonVal) : Option Expr :=
  match ArithOp.ofStr op with
  | some o => decodeArithArgs o args
  | none => none
termination_by 2 * sizeOf args + 2
decreasing_by all_goals (simp_wf; try omega)

/-- The operand pair of an `ArithmeticExpression`. -/
def decodeArithArgs (o : ArithOp) (args : JsonVal) : Option Expr :=
  match args with
  | .arr [a, b] => do
      let ea ← decodeNumericE a
      let eb ← decodeNumericE b
      some (.arith o ea eb)
  | _ => none
termination_by 2 * sizeOf args + 1
decreasing_by all_goals (simp_wf; try omega)

/-- The inner `Function` model: a `name` (strict string) and an optional
`args` list; a missing or `null` `args` is `None`. -/
def decodeFunction (fv : JsonVal) : Option Expr :=
  match fv with
  | .obj [(k, x)] =>
      if k = "name" then (asStr x).map (fun nm => .functionRef nm none)
      else none
  | .obj [(k1, x1), (k2, x2)] =>
      if k1 = "name" && k2 = "args" then
        (asStr x1).bind fun nm =>
          match x2 with
          | .null => some (.functionRef nm none)
          | .arr xs => (decodeListArrayElem xs).map (fun es => .functionRef nm (some es))
          | _ => none
      else none
  | _ => none
termination_by 2 * sizeOf fv
decreasing_by all_goals (simp_wf; try omega)

/-- Elementwise decoding of a `List[BooleanExpression]`. -/
def decodeListBeW : List JsonVal → Option (List Expr)
  | [] => some []
  | x :: xs => do
      let e ← decodeBeW x
      let es ← decodeListBeW xs
      some (e :: es)
termination_by xs => 2 * sizeOf xs
decreasing_by all_goals (simp_wf; try omega)

/-- Elementwise decoding of a `List[ScalarExpression]`. -/
def decodeListScalar : List JsonVal → Option (List Expr)
  | [] => some []
  | x :: xs => do
      let e ← decodeScalar x
      let es ← decodeListScalar xs
      some (e :: es)
termination_by xs => 2 * sizeOf xs
decreasing_by all_goals (simp_wf; try omega)

/-- Elementwise decoding of a list of `ArrayElement`s. -/
def decodeListArrayElem : List JsonVal → Option (List Expr)
  | [] => some []
  | x :: xs => do
      let e ← decodeArrayElem x
      let es ← decodeListArrayElem xs
      some (e :: es)
termination_by xs => 2 * sizeOf xs
decreasing_by all_goals (simp_wf; try omega)

end

/-- The public JSON entry point: `BooleanExpression.model_validate`. -/
def decodeBE (v : JsonVal) : Option Expr := decodeBeW v

/-! ## Well-formed and canonical ASTs

`wf* false` is the typed data model exactly as the pydantic annotations
declare it: each union position admits every flattened union member.
`wf* true` additionally restricts union-overlapping values to the member
the decoder (leftmost-first union resolution) actually produces: a
`PropertyRef`/`FunctionRef` under a `CharacterExpression` wrapper is
shadowed by the bare members in `ScalarExpression` and, conversely, the
bare members are shadowed by the `CharacterExpression`-wrapped ones in
`IsNullOperand`, `ArrayElement` and function arguments.  Both include the
field bounds Python's `date`/`datetime` maintain. -/

/-- Whether a node is a bare `PropertyRef` or `FunctionRef`. -/
def isPropOrFn : Expr → Bool
  | .propertyRef _ => true
  | .functionRef _ _ => true
  | _ => false

/-- Whether a number is a Python float. -/
def isPfloat : PyNum → Bool
  | .pfloat _ => true
  | .pint _ => false

/-- The shape of a validated GeoJSON value (see `decodeGeomLit`). -/
def isGeomJson : JsonVal → Bool
  | .obj [("type", .str t), ("coordinates", .arr _)] => geomTypeOk t
  | .obj [("type", .str t), ("geometries", .arr _)] => t = "GeometryCollection"
  | _ => false

/-- The shape of a validated `BBox`: 4 or 6 numbers, stored as floats. -/
def bboxOk (ns : List PyNum) : Bool :=
  (ns.length = 4 || ns.length = 6) && ns.all isPfloat

mutual

/-- Well-formedness at `BooleanExpression`. -/
def wfBeW (m : Bool) : Expr → Bool
  | .boolExpr r => wfBoolItems m r
  | _ => false

/-- Well-formedness at `BooleanExpressionItems`. -/
def wfBoolItems (m : Bool) : Expr → Bool
  | .boolLit _ => true
  | .andOr _ args => 2 ≤ args.length && wfListBeW m args
  | .notE a => wfBeW m a
  | .binCmp _ a b => wfScalar m a && wfScalar m b
  | .isLike a b => wfCharW m a && wfPatternW m b
  | .isBetween a b c => wfNumericE m a && wfNumericE m b && wfNumericE m c
  | .isInList a l => wfScalar m a && wfListScalar m l
  | .isNull a => wfIsNullOp m a
  | .spatialPred _ a b => wfGeomE m a && wfGeomE m b
  | .temporalPred _ a b => wfTemporalE m a && wfTemporalE m b
  | .arrayPred _ args => wfArrayExprC m args
  | _ => false

/-- Well-formedness at `ScalarExpression`. -/
def wfScalar (m : Bool) : Expr → Bool
  | .dateInstant d => validPyDate d
  | .timestampInstant t => validPyDateTime t
  | .propertyRef _ => true
  | .functionRef _ args => wfFnArgs m args
  | .boolExpr r => wfBoolItems m r
  | .charExpr r => wfCharItems m r && (!m || !isPropOrFn r)
  | .numLit _ => true
  | .arith _ a b => wfNumericE m a && wfNumericE m b
  | _ => false

/-- Well-formedness at `NumericExpression` / `ArithmeticOperandsItems`. -/
def wfNumericE (m : Bool) : Expr → Bool
  | .numLit _ => true
  | .arith _ a b => wfNumericE m a && wfNumericE m b
  | .propertyRef _ => true
  | .functionRef _ args => wfFnArgs m args
  | _ => false

/-- Well-formedness at `CharacterExpression`. -/
def wfCharW (m : Bool) : Expr → Bool
  | .charExpr r => wfCharItems m r
  | _ => false

/-- Well-formedness at `CharacterExpressionItems`. -/
def wfCharItems (m : Bool) : Expr → Bool
  | .strLit _ => true
  | .casei x => wfCharW m x
  | .accenti x => wfCharW m x
  | .propertyRef _ => true
  | .functionRef _ args => wfFnArgs m args
  | _ => false

/-- Well-formedness at `PatternExpression`. -/
def wfPatternW (m : Bool) : Expr → Bool
  | .patternExpr r => wfPatternItems m r
  | _ => false

/-- Well-formedness at `PatternExpressionItems` (no property/function
members). -/
def wfPatternItems (m : Bool) : Expr → Bool
  | .strLit _ => true
  | .casei x => wfPatternW m x
  | .accenti x => wfPatternW m x
  | _ => false

/-- Well-formedness at `IsNullOperand`.  In canonical mode the bare
property/function members are excluded: the `CharacterExpression` member
precedes them in the union, so the decoder returns the wrapped form. -/
def wfIsNullOp (m : Bool) : Expr → Bool
  | .charExpr r => wfCharItems m r
  | .numLit _ => true
  | .arith _ a b => wfNumericE m a && wfNumericE m b
  | .propertyRef _ => !m
  | .functionRef _ args => !m && wfFnArgs m args
  | .dateInstant d => validPyDate d
  | .timestampInstant t => validPyDateTime t
  | .intervalInst a b => wfIntervalItem m a && wfIntervalItem m b
  | .boolExpr r => wfBoolItems m r
  | .geometry g => isGeomJson g
  | .bboxLit ns => bboxOk ns
  | _ => false

/-- Well-formedness at `TemporalExpression`. -/
def wfTemporalE (m : Bool) : Expr → Bool
  | .dateInstant d => validPyDate d
  | .timestampInstant t => validPyDateTime t
  | .intervalInst a b => wfIntervalItem m a && wfIntervalItem m b
  | .propertyRef _ => true
  | .functionRef _ args => wfFnArgs m args
  | _ => false

/-- Well-formedness at `GeomExpression`. -/
def wfGeomE (m : Bool) : Expr → Bool
  | .geometry g => isGeomJson g
  | .bboxLit ns => bboxOk ns
  | .propertyRef _ => true
  | .functionRef _ args => wfFnArgs m args
  | _ => false

/-- Well-formedness at `ArrayElement` (and function arguments).  As in
`IsNullOperand`, canonical mode excludes the bare property/function
members. -/
def wfArrayElem (m : Bool) : Expr → Bool
  | .charExpr r => wfCharItems m r
  | .numLit _ => true
  | .arith _ a b => wfNumericE m a && wfNumericE m b
  | .propertyRef _ => !m
  | .functionRef _ args => !m && wfFnArgs m args
  | .boolExpr r => wfBoolItems m r
  | .geometry g => isGeomJson g
  | .bboxLit ns => bboxOk ns
  | .dateInstant d => validPyDate d
  | .timestampInstant t => validPyDateTime t
  | .intervalInst a b => wfIntervalItem m a && wfIntervalItem m b
  | .arrayLit xs => wfListArrayElem m xs
  | _ => false

/-- Well-formedness at `ArrayExpressionItems`. -/
def wfArrayItems (m : Bool) : Expr → Bool
  | .arrayLit xs => wfListArrayElem m xs
  | .propertyRef _ => true
  | .functionRef _ args => wfFnArgs m args
  | _ => false

/-- Well-formedness at `ArrayExpression`. -/
def wfArrayExprC (m : Bool) : Expr → Bool
  | .arrayExpr a b => wfArrayItems m a && wfArrayItems m b
  | _ => false

/-- Well-formedness at `IntervalArrayItems`. -/
def wfIntervalItem (m : Bool) : Expr → Bool
  | .intervalItem v => wfIntervalVal m v
  | _ => false

/-- Well-formedness of an interval endpoint payload. -/
def wfIntervalVal (m : Bool) : Expr → Bool
  | .pyDT t => validPyDateTime t
  | .pyDate d => validPyDate d
  | .dotdot => true
  | .propertyRef _ => true
  | .functionRef _ args => wfFnArgs m args
  | _ => false

/-- Well-formedness at `FunctionArguments`. -/
def wfFnArgs (m : Bool) : Option (List Expr) → Bool
  | none => true
  | some xs => wfListArrayElem m xs

/-- Elementwise well-formedness of a `List[BooleanExpression]`. -/
def wfListBeW (m : Bool) : List Expr → Bool
  | [] => true
  | e :: es => wfBeW m e && wfListBeW m es

/-- Elementwise well-formedness of a `List[ScalarExpression]`. -/
def wfListScalar (m : Bool) : List Expr → Bool
  | [] => true
  | e :: es => wfScalar m e && wfListScalar m es

/-- Elementwise well-formedness of a list of `ArrayElement`s. -/
def wfListArrayElem (m : Bool) : List Expr → Bool
  | [] => true
  | e :: es => wfArrayElem m e && wfListArrayElem m es

end

/-- A well-formed AST value (rooted at `BooleanExpression`), exactly as the
pydantic type annotations admit it. -/
def wf (a : Expr) : Bool := wfBeW false a

/-- A canonical AST value: well-formed and in the decoder's image
representation. -/
def canon (a : Expr) : Bool := wfBeW true a

/-! ## Round trip on canonical values: supporting lemmas -/

/-- The dumped body of the inner `Function` model. -/
def fnBody (nm : String) : Option (List Expr) → JsonVal
  | none => .obj [("name", .str nm), ("args", .null)]
  | some xs => .obj [("name", .str nm), ("args", .arr (encodeList xs))]

theorem encode_functionRef (nm : String) (args : Option (List Expr)) :
    encode (.functionRef nm args) = .obj [("function", fnBody nm args)] := by
  cases args <;> simp [encode, fnBody]

theorem ArithOp.arith_ofStr_toStr (op : ArithOp) : ArithOp.ofStr op.toStr = some op := by
  cases op <;> rfl

theorem CmpOp.cmp_ofStr_toStr (op : CmpOp) : CmpOp.ofStr op.toStr = some op := by
  cases op <;> rfl

theorem SpatialOp.spatial_ofStr_toStr (op : SpatialOp) : SpatialOp.ofStr op.toStr = some op := by
  cases op <;> rfl

theorem TemporalOp.temporal_ofStr_toStr (op : TemporalOp) : TemporalOp.ofStr op.toStr = some op := by
  cases op <;> rfl

theorem ArrayOp.array_ofStr_toStr (op : ArrayOp) : ArrayOp.ofStr op.toStr = some op := by
  cases op <;> rfl

theorem decodeBoolNode_and (args : JsonVal) :
    decodeBoolNode "and" args = decodeAndOrNode "and" args := by
  simp [decodeBoolNode]

theorem decodeBoolNode_or (args : JsonVal) :
    decodeBoolNode "or" args = decodeAndOrNode "or" args := by
  simp [decodeBoolNode]

theorem decodeBoolNode_not (args : JsonVal) :
    decodeBoolNode "not" args = decodeNotNode args := by
  simp [decodeBoolNode]

theorem decodeBoolNode_cmp (c : CmpOp) (args : JsonVal) :
    decodeBoolNode c.toStr args = decodeCmpNode c args := by
  cases c <;> simp [decodeBoolNode, CmpOp.toStr, CmpOp.ofStr]

theorem decodeBoolNode_like (args : JsonVal) :
    decodeBoolNode "like" args = decodeLikeNode args := by
  simp [decodeBoolNode, CmpOp.ofStr]

theorem decodeBoolNode_between (args : JsonVal) :
    decodeBoolNode "between" args = decodeBetweenNode args := by
  simp [decodeBoolNode, CmpOp.ofStr]

theorem decodeBoolNode_in (args : JsonVal) :
    decodeBoolNode "in" args = decodeInNode args := by
  simp [decodeBoolNode, CmpOp.ofStr]

theorem decodeBoolNode_isNull (args : JsonVal) :
    decodeBoolNode "isNull" args = (decodeIsNullOp args).map .isNull := by
  simp [decodeBoolNode, CmpOp.ofStr]

theorem decodeBoolNode_spatial (so : SpatialOp) (args : JsonVal) :
    decodeBoolNode so.toStr args = decodeSpatialNode so args := by
  cases so <;>
    simp [decodeBoolNode, SpatialOp.toStr, CmpOp.ofStr, SpatialOp.ofStr]

theorem decodeBoolNode_temporal (to_ : TemporalOp) (args : JsonVal) :
    decodeBoolNode to_.toStr args = decodeTemporalNode to_ args := by
  cases to_ <;>
    simp [decodeBoolNode, TemporalOp.toStr, CmpOp.ofStr, SpatialOp.ofStr, TemporalOp.ofStr]

theorem decodeBoolNode_array (ao : ArrayOp) (args : JsonVal) :
    decodeBoolNode ao.toStr args = (decodeArrayExprC args).map (.arrayPred ao) := by
  cases ao <;>
    simp [decodeBoolNode, ArrayOp.toStr, CmpOp.ofStr, SpatialOp.ofStr, TemporalOp.ofStr,
      ArrayOp.ofStr]

theorem decodeBoolNode_arith_none (o : ArithOp) (args : JsonVal) :
    decodeBoolNode o.toStr args = none := by
  cases o <;>
    simp [decodeBoolNode, ArithOp.toStr, CmpOp.ofStr, SpatialOp.ofStr, TemporalOp.ofStr,
      ArrayOp.ofStr]

theorem decodeArithNode_toStr (o : ArithOp) (args : JsonVal) :
    decodeArithNode o.toStr args = decodeArithArgs o args := by
  simp [decodeArithNode, ArithOp.arith_ofStr_toStr]

theorem decodeArithNode_none {op : String} (h : ArithOp.ofStr op = none)
    (args : JsonVal) : decodeArithNode op args = none := by
  simp [decodeArithNode, h]

theorem isGeomJson_shape {g : JsonVal} (h : isGeomJson g = true) :
    (∃ t cs, g = .obj [("type", .str t), ("coordinates", .arr cs)] ∧
      geomTypeOk t = true) ∨
    (∃ gs, g = .obj [("type", .str "GeometryCollection"), ("geometries", .arr gs)]) := by
  unfold isGeomJson at h
  split at h
  · exact .inl ⟨_, _, rfl, h⟩
  · rename_i t _
    have ht : t = "GeometryCollection" := by simpa using h
    subst ht
    exact .inr ⟨_, rfl⟩
  · exact absurd h (by simp)

theorem decodeBboxNums_map {ns : List PyNum} (h : ns.all isPfloat = true) :
    decodeBboxNums (ns.map JsonVal.num) = some ns := by
  induction ns with
  | nil => rfl
  | cons n rest ih =>
      simp only [List.all_cons, Bool.and_eq_true] at h
      match n, h.1 with
      | .pfloat f, _ =>
          simp [decodeBboxNums, ih h.2]

theorem decodeBbox_enc {ns : List PyNum} (h : bboxOk ns = true) :
    decodeBbox (ns.map JsonVal.num) = some (.bboxLit ns) := by
  have h1 : ns.all isPfloat = true := by
    simp only [bboxOk, Bool.and_eq_true] at h; exact h.2
  have h2 : ns.length = 4 ∨ ns.length = 6 := by
    simp [bboxOk] at h; exact h.1
  simp [decodeBbox, decodeBboxNums_map h1]
  rcases h2 with h2 | h2 <;> simp [h2]

theorem data_mk (cs : List Char) : (String.mk cs).data = cs := rfl

theorem parseDT_formatDate (d : PyDate) : parseDT (formatDate d) = none := rfl

theorem parseDT_dotdot : parseDT dotdotStr.data = none := rfl

theorem parseDate_dotdot : parseDate dotdotStr.data = none := rfl

/-! ## The round-trip induction

For every canonical AST node, decoding its encoding at the node's own
union context restores it exactly.  One theorem per decoding function,
proved by mutual structural recursion. -/

set_option maxHeartbeats 3200000 in
mutual

theorem rt_beW (e : Expr) (h : wfBeW true e = true) :
    decodeBeW (encode e) = some e := by
  cases e
  case boolExpr r =>
    have hr : wfBoolItems true r = true := by simpa [wfBeW] using h
    rcases rt_boolNode r hr with ⟨b, rfl, henc⟩ | ⟨op, args, henc, _, hdec⟩
    · rw [show encode (Expr.boolExpr (Expr.boolLit b)) = JsonVal.bool b from by simp [encode]]
      simp [decodeBeW]
    · rw [show encode (Expr.boolExpr r) = encode r from by simp [encode], henc]
      simp [decodeBeW, asStr, hdec]
  all_goals simp [wfBeW] at h
termination_by 2 * sizeOf e + 1
decreasing_by all_goals (simp_wf; try subst_vars; try simp_wf; try omega)

theorem rt_boolNode (e : Expr) (h : wfBoolItems true e = true) :
    (∃ b, e = .boolLit b ∧ encode e = .bool b) ∨
    (∃ op args, encode e = .obj [("op", .str op), ("args", args)] ∧
      ArithOp.ofStr op = none ∧ decodeBoolNode op args = some e) := by
  cases e
  case boolLit b => exact .inl ⟨b, rfl, by simp [encode]⟩
  case andOr op args =>
    simp only [wfBoolItems, Bool.and_eq_true, decide_eq_true_eq] at h
    refine .inr ⟨op.toStr, .arr (encodeList args), by simp [encode], ?_, ?_⟩
    · cases op <;> rfl
    · have hl := rt_listBeW args h.2
      cases op
      · rw [show AndOrOp.and.toStr = "and" from rfl, decodeBoolNode_and]
        simp [decodeAndOrNode, hl, h.1]
      · rw [show AndOrOp.or.toStr = "or" from rfl, decodeBoolNode_or]
        simp [decodeAndOrNode, hl, h.1]
  case notE a =>
    have ha : wfBeW true a = true := by simpa [wfBoolItems] using h
    exact .inr ⟨"not", .arr [encode a], by simp [encode], rfl,
      by rw [decodeBoolNode_not]; simp [decodeNotNode, rt_beW a ha]⟩
  case binCmp c a b =>
    simp only [wfBoolItems, Bool.and_eq_true] at h
    refine .inr ⟨c.toStr, .arr [encode a, encode b], by simp [encode], ?_, ?_⟩
    · cases c <;> rfl
    · rw [decodeBoolNode_cmp]
      simp [decodeCmpNode, rt_scalar a h.1, rt_scalar b h.2]
  case isLike a b =>
    simp only [wfBoolItems, Bool.and_eq_true] at h
    exact .inr ⟨"like", .arr [encode a, encode b], by simp [encode], rfl,
      by rw [decodeBoolNode_like]
         simp [decodeLikeNode, rt_charW a h.1, rt_patternW b h.2]⟩
  case isBetween a b c =>
    simp only [wfBoolItems, Bool.and_eq_true] at h
    exact .inr ⟨"between", .arr [encode a, encode b, encode c], by simp [encode], rfl,
      by rw [decodeBoolNode_between]
         simp [decodeBetweenNode, rt_numericE a h.1.1, rt_numericE b h.1.2,
           rt_numericE c h.2]⟩
  case isInList a l =>
    simp only [wfBoolItems, Bool.and_eq_true] at h
    exact .inr ⟨"in", .arr [encode a, .arr (encodeList l)], by simp [encode], rfl,
      by rw [decodeBoolNode_in]
         simp [decodeInNode, rt_scalar a h.1, rt_listScalar l h.2]⟩
  case isNull a =>
    have ha : wfIsNullOp true a = true := by simpa [wfBoolItems] using h
    exact .inr ⟨"isNull", encode a, by simp [encode], rfl,
      by rw [decodeBoolNode_isNull]; simp [rt_isNullOp a ha]⟩
  case spatialPred so a b =>
    simp only [wfBoolItems, Bool.and_eq_true] at h
    refine .inr ⟨so.toStr, .arr [encode a, encode b], by simp [encode], ?_, ?_⟩
    · cases so <;> rfl
    · rw [decodeBoolNode_spatial]
      simp [decodeSpatialNode, rt_geomE a h.1, rt_geomE b h.2]
  case temporalPred to_ a b =>
    simp only [wfBoolItems, Bool.and_eq_true] at h
    refine .inr ⟨to_.toStr, .arr [encode a, encode b], by simp [encode], ?_, ?_⟩
    · cases to_ <;> rfl
    · rw [decodeBoolNode_temporal]
      simp [decodeTemporalNode, rt_temporalE a h.1, rt_temporalE b h.2]
  case arrayPred ao args =>
    have ha : wfArrayExprC true args = true := by simpa [wfBoolItems] using h
    refine .inr ⟨ao.toStr, encode args, by simp [encode], ?_, ?_⟩
    · cases ao <;> rfl
    · rw [decodeBoolNode_array]
      simp [rt_arrayExprC args ha]
  all_goals simp [wfBoolItems] at h
termination_by 2 * sizeOf e
decreasing_by all_goals (simp_wf; try subst_vars; try simp_wf; try omega)

theorem rt_scalar (e : Expr) (h : wfScalar true e = true) :
    decodeScalar (encode e) = some e := by
  cases e
  case dateInstant d =>
    have hv : validPyDate d = true := by simpa [wfScalar] using h
    simp [encode, decodeScalar, decodeScalarKey, asStr, data_mk, parseDate_formatDate hv]
  case timestampInstant t =>
    have hv : validPyDateTime t = true := by simpa [wfScalar] using h
    simp [encode, decodeScalar, decodeScalarKey, asStr, data_mk,
      parseDT_pydanticFormatDT hv]
  case propertyRef p => simp [encode, decodeScalar, decodeScalarKey, asStr]
  case functionRef nm args =>
    have hf : wfFnArgs true args = true := by simpa [wfScalar] using h
    rw [encode_functionRef]
    simp [decodeScalar, decodeScalarKey, rt_function nm args hf]
  case boolExpr r =>
    have hr : wfBoolItems true r = true := by simpa [wfScalar] using h
    rcases rt_boolNode r hr with ⟨b, rfl, henc⟩ | ⟨op, args, henc, _, hdec⟩
    · rw [show encode (Expr.boolExpr (Expr.boolLit b)) = JsonVal.bool b from by simp [encode]]
      simp [decodeScalar]
    · rw [show encode (Expr.boolExpr r) = encode r from by simp [encode], henc]
      simp [decodeScalar, asStr, hdec]
  case charExpr r =>
    cases r
    case strLit str_ =>
      rw [show encode (Expr.charExpr (Expr.strLit str_)) = JsonVal.str str_ from by
        simp [encode]]
      simp [decodeScalar]
    case casei x =>
      have hx : wfCharW true x = true := by
        simpa [wfScalar, wfCharItems, isPropOrFn] using h
      rw [show encode (Expr.charExpr (Expr.casei x)) = .obj [("casei", encode x)] from by
        simp [encode]]
      simp [decodeScalar, decodeScalarKey, rt_charW x hx]
    case accenti x =>
      have hx : wfCharW true x = true := by
        simpa [wfScalar, wfCharItems, isPropOrFn] using h
      rw [show encode (Expr.charExpr (Expr.accenti x)) = .obj [("accenti", encode x)] from by
        simp [encode]]
      simp [decodeScalar, decodeScalarKey, rt_charW x hx]
    all_goals simp [wfScalar, wfCharItems, isPropOrFn] at h
  case numLit n => simp [encode, decodeScalar]
  case arith o a b =>
    simp only [wfScalar, Bool.and_eq_true] at h
    rw [show encode (Expr.arith o a b) =
        .obj [("op", .str o.toStr), ("args", .arr [encode a, encode b])] from by
      simp [encode]]
    simp [decodeScalar, asStr, decodeBoolNode_arith_none, decodeArithNode_toStr,
      decodeArithArgs, rt_numericE a h.1, rt_numericE b h.2]
  all_goals simp [wfScalar] at h
termination_by 2 * sizeOf e
decreasing_by all_goals (simp_wf; try subst_vars; try simp_wf; try omega)

theorem rt_numericE (e : Expr) (h : wfNumericE true e = true) :
    decodeNumericE (encode e) = some e := by
  cases e
  case numLit n => simp [encode, decodeNumericE]
  case arith o a b =>
    simp only [wfNumericE, Bool.and_eq_true] at h
    rw [show encode (Expr.arith o a b) =
        .obj [("op", .str o.toStr), ("args", .arr [encode a, encode b])] from by
      simp [encode]]
    simp [decodeNumericE, asStr, decodeArithNode_toStr, decodeArithArgs,
      rt_numericE a h.1, rt_numericE b h.2]
  case propertyRef p => simp [encode, decodeNumericE, asStr]
  case functionRef nm args =>
    have hf : wfFnArgs true args = true := by simpa [wfNumericE] using h
    rw [encode_functionRef]
    simp [decodeNumericE, rt_function nm args hf]
  all_goals simp [wfNumericE] at h
termination_by 2 * sizeOf e
decreasing_by all_goals (simp_wf; try subst_vars; try simp_wf; try omega)

theorem rt_charW (e : Expr) (h : wfCharW true e = true) :
    decodeCharW (encode e) = some e := by
  cases e
  case charExpr r =>
    cases r
    case strLit str_ =>
      rw [show encode (Expr.charExpr (Expr.strLit str_)) = JsonVal.str str_ from by
        simp [encode]]
      simp [decodeCharW]
    case casei x =>
      have hx : wfCharW true x = true := by simpa [wfCharW, wfCharItems] using h
      rw [show encode (Expr.charExpr (Expr.casei x)) = .obj [("casei", encode x)] from by
        simp [encode]]
      simp [decodeCharW, decodeCharKey, rt_charW x hx]
    case accenti x =>
      have hx : wfCharW true x = true := by simpa [wfCharW, wfCharItems] using h
      rw [show encode (Expr.charExpr (Expr.accenti x)) = .obj [("accenti", encode x)] from by
        simp [encode]]
      simp [decodeCharW, decodeCharKey, rt_charW x hx]
    case propertyRef p =>
      rw [show encode (Expr.charExpr (Expr.propertyRef p)) =
          .obj [("property", .str p)] from by simp [encode]]
      simp [decodeCharW, decodeCharKey, asStr]
    case functionRef nm args =>
      have hf : wfFnArgs true args = true := by simpa [wfCharW, wfCharItems] using h
      rw [show encode (Expr.charExpr (Expr.functionRef nm args)) =
          .obj [("function", fnBody nm args)] from by
        rw [show encode (Expr.charExpr (Expr.functionRef nm args)) =
            encode (Expr.functionRef nm args) from by simp [encode]]
        exact encode_functionRef nm args]
      simp [decodeCharW, decodeCharKey, rt_function nm args hf]
    all_goals simp [wfCharW, wfCharItems] at h
  all_goals simp [wfCharW] at h
termination_by 2 * sizeOf e
decreasing_by all_goals (simp_wf; try subst_vars; try simp_wf; try omega)

theorem rt_patternW (e : Expr) (h : wfPatternW true e = true) :
    decodePatternW (encode e) = some e := by
  cases e
  case patternExpr r =>
    cases r
    case strLit str_ =>
      rw [show encode (Expr.patternExpr (Expr.strLit str_)) = JsonVal.str str_ from by
        simp [encode]]
      simp [decodePatternW]
    case casei x =>
      have hx : wfPatternW true x = true := by simpa [wfPatternW, wfPatternItems] using h
      rw [show encode (Expr.patternExpr (Expr.casei x)) = .obj [("casei", encode x)] from by
        simp [encode]]
      simp [decodePatternW, rt_patternW x hx]
    case accenti x =>
      have hx : wfPatternW true x = true := by simpa [wfPatternW, wfPatternItems] using h
      rw [show encode (Expr.patternExpr (Expr.accenti x)) =
          .obj [("accenti", encode x)] from by simp [encode]]
      simp [decodePatternW, rt_patternW x hx]
    all_goals simp [wfPatternW, wfPatternItems] at h
  all_goals simp [wfPatternW] at h
termination_by 2 * sizeOf e
decreasing_by all_goals (simp_wf; try subst_vars; try simp_wf; try omega)

theorem rt_isNullOp (e : Expr) (h : wfIsNullOp true e = true) :
    decodeIsNullOp (encode e) = some e := by
  cases e
  case charExpr r =>
    cases r
    case strLit str_ =>
      rw [show encode (Expr.charExpr (Expr.strLit str_)) = JsonVal.str str_ from by
        simp [encode]]
      simp [decodeIsNullOp]
    case casei x =>
      have hx : wfCharW true x = true := by simpa [wfIsNullOp, wfCharItems] using h
      rw [show encode (Expr.charExpr (Expr.casei x)) = .obj [("casei", encode x)] from by
        simp [encode]]
      simp [decodeIsNullOp, decodeIsNullKey, rt_charW x hx]
    case accenti x =>
      have hx : wfCharW true x = true := by simpa [wfIsNullOp, wfCharItems] using h
      rw [show encode (Expr.charExpr (Expr.accenti x)) = .obj [("accenti", encode x)] from by
        simp [encode]]
      simp [decodeIsNullOp, decodeIsNullKey, rt_charW x hx]
    case propertyRef p =>
      rw [show encode (Expr.charExpr (Expr.propertyRef p)) =
          .obj [("property", .str p)] from by simp [encode]]
      simp [decodeIsNullOp, decodeIsNullKey, asStr]
    case functionRef nm args =>
      have hf : wfFnArgs true args = true := by simpa [wfIsNullOp, wfCharItems] using h
      rw [show encode (Expr.charExpr (Expr.functionRef nm args)) =
          .obj [("function", fnBody nm args)] from by
        rw [show encode (Expr.charExpr (Expr.functionRef nm args)) =
            encode (Expr.functionRef nm args) from by simp [encode]]
        exact encode_functionRef nm args]
      simp [decodeIsNullOp, decodeIsNullKey, rt_function nm args hf]
    all_goals simp [wfIsNullOp, wfCharItems] at h
  case numLit n => simp [encode, decodeIsNullOp]
  case arith o a b =>
    simp only [wfIsNullOp, Bool.and_eq_true] at h
    rw [show encode (Expr.arith o a b) =
        .obj [("op", .str o.toStr), ("args", .arr [encode a, encode b])] from by
      simp [encode]]
    simp [decodeIsNullOp, asStr, decodeArithNode_toStr, decodeArithArgs,
      rt_numericE a h.1, rt_numericE b h.2]
  case dateInstant d =>
    have hv : validPyDate d = true := by simpa [wfIsNullOp] using h
    simp [encode, decodeIsNullOp, decodeIsNullKey, asStr, data_mk, parseDate_formatDate hv]
  case timestampInstant t =>
    have hv : validPyDateTime t = true := by simpa [wfIsNullOp] using h
    simp [encode, decodeIsNullOp, decodeIsNullKey, asStr, data_mk,
      parseDT_pydanticFormatDT hv]
  case intervalInst a b =>
    simp only [wfIsNullOp, Bool.and_eq_true] at h
    rw [show encode (Expr.intervalInst a b) =
        .obj [("interval", .arr [encode a, encode b])] from by simp [encode]]
    simp [decodeIsNullOp, decodeIsNullKey, decodeIntervalPair,
      rt_intervalItem a h.1, rt_intervalItem b h.2]
  case boolExpr r =>
    have hr : wfBoolItems true r = true := by simpa [wfIsNullOp] using h
    rcases rt_boolNode r hr with ⟨b, rfl, henc⟩ | ⟨op, args, henc, harith, hdec⟩
    · rw [show encode (Expr.boolExpr (Expr.boolLit b)) = JsonVal.bool b from by simp [encode]]
      simp [decodeIsNullOp]
    · rw [show encode (Expr.boolExpr r) = encode r from by simp [encode], henc]
      simp [decodeIsNullOp, asStr, decodeArithNode_none harith, hdec]
  case geometry g =>
    have hg : isGeomJson g = true := by simpa [wfIsNullOp] using h
    rw [show encode (Expr.geometry g) = g from by simp [encode]]
    rcases isGeomJson_shape hg with ⟨t, cs, rfl, ht⟩ | ⟨gs, rfl⟩
    · simp [decodeIsNullOp, decodeGeomLit, ht]
    · simp [decodeIsNullOp, decodeGeomLit]
  case bboxLit ns =>
    have hb : bboxOk ns = true := by simpa [wfIsNullOp] using h
    rw [show encode (Expr.bboxLit ns) = .obj [("bbox", .arr (ns.map JsonVal.num))] from by
      simp [encode]]
    simp [decodeIsNullOp, decodeIsNullKey, decodeBboxVal, decodeBbox_enc hb]
  all_goals simp [wfIsNullOp] at h
termination_by 2 * sizeOf e
decreasing_by all_goals (simp_wf; try subst_vars; try simp_wf; try omega)

theorem rt_temporalE (e : Expr) (h : wfTemporalE true e = true) :
    decodeTemporalE (encode e) = some e := by
  cases e
  case dateInstant d =>
    have hv : validPyDate d = true := by simpa [wfTemporalE] using h
    simp [encode, decodeTemporalE, decodeTemporalKey, asStr, data_mk,
      parseDate_formatDate hv]
  case timestampInstant t =>
    have hv : validPyDateTime t = true := by simpa [wfTemporalE] using h
    simp [encode, decodeTemporalE, decodeTemporalKey, asStr, data_mk,
      parseDT_pydanticFormatDT hv]
  case intervalInst a b =>
    simp only [wfTemporalE, Bool.and_eq_true] at h
    rw [show encode (Expr.intervalInst a b) =
        .obj [("interval", .arr [encode a, encode b])] from by simp [encode]]
    simp [decodeTemporalE, decodeTemporalKey, decodeIntervalPair,
      rt_intervalItem a h.1, rt_intervalItem b h.2]
  case propertyRef p => simp [encode, decodeTemporalE, decodeTemporalKey, asStr]
  case functionRef nm args =>
    have hf : wfFnArgs true args = true := by simpa [wfTemporalE] using h
    rw [encode_functionRef]
    simp [decodeTemporalE, decodeTemporalKey, rt_function nm args hf]
  all_goals simp [wfTemporalE] at h
termination_by 2 * sizeOf e
decreasing_by all_goals (simp_wf; try subst_vars; try simp_wf; try omega)

theorem rt_geomE (e : Expr) (h : wfGeomE true e = true) :
    decodeGeomE (encode e) = some e := by
  cases e
  case geometry g =>
    have hg : isGeomJson g = true := by simpa [wfGeomE] using h
    rw [show encode (Expr.geometry g) = g from by simp [encode]]
    rcases isGeomJson_shape hg with ⟨t, cs, rfl, ht⟩ | ⟨gs, rfl⟩
    · simp [decodeGeomE, decodeGeomLit, ht]
    · simp [decodeGeomE, decodeGeomLit]
  case bboxLit ns =>
    have hb : bboxOk ns = true := by simpa [wfGeomE] using h
    rw [show encode (Expr.bboxLit ns) = .obj [("bbox", .arr (ns.map JsonVal.num))] from by
      simp [encode]]
    simp [decodeGeomE, decodeBboxVal, decodeBbox_enc hb]
  case propertyRef p => simp [encode, decodeGeomE, asStr]
  case functionRef nm args =>
    have hf : wfFnArgs true args = true := by simpa [wfGeomE] using h
    rw [encode_functionRef]
    simp [decodeGeomE, rt_function nm args hf]
  all_goals simp [wfGeomE] at h
termination_by 2 * sizeOf e
decreasing_by all_goals (simp_wf; try subst_vars; try simp_wf; try omega)

theorem rt_arrayElem (e : Expr) (h : wfArrayElem true e = true) :
    decodeArrayElem (encode e) = some e := by
  cases e
  case charExpr r =>
    cases r
    case strLit str_ =>
      rw [show encode (Expr.charExpr (Expr.strLit str_)) = JsonVal.str str_ from by
        simp [encode]]
      simp [decodeArrayElem]
    case casei x =>
      have hx : wfCharW true x = true := by simpa [wfArrayElem, wfCharItems] using h
      rw [show encode (Expr.charExpr (Expr.casei x)) = .obj [("casei", encode x)] from by
        simp [encode]]
      simp [decodeArrayElem, decodeIsNullKey, rt_charW x hx]
    case accenti x =>
      have hx : wfCharW true x = true := by simpa [wfArrayElem, wfCharItems] using h
      rw [show encode (Expr.charExpr (Expr.accenti x)) = .obj [("accenti", encode x)] from by
        simp [encode]]
      simp [decodeArrayElem, decodeIsNullKey, rt_charW x hx]
    case propertyRef p =>
      rw [show encode (Expr.charExpr (Expr.propertyRef p)) =
          .obj [("property", .str p)] from by simp [encode]]
      simp [decodeArrayElem, decodeIsNullKey, asStr]
    case functionRef nm args =>
      have hf : wfFnArgs true args = true := by simpa [wfArrayElem, wfCharItems] using h
      rw [show encode (Expr.charExpr (Expr.functionRef nm args)) =
          .obj [("function", fnBody nm args)] from by
        rw [show encode (Expr.charExpr (Expr.functionRef nm args)) =
            encode (Expr.functionRef nm args) from by simp [encode]]
        exact encode_functionRef nm args]
      simp [decodeArrayElem, decodeIsNullKey, rt_function nm args hf]
    all_goals simp [wfArrayElem, wfCharItems] at h
  case numLit n => simp [encode, decodeArrayElem]
  case arith o a b =>
    simp only [wfArrayElem, Bool.and_eq_true] at h
    rw [show encode (Expr.arith o a b) =
        .obj [("op", .str o.toStr), ("args", .arr [encode a, encode b])] from by
      simp [encode]]
    simp [decodeArrayElem, asStr, decodeArithNode_toStr, decodeArithArgs,
      rt_numericE a h.1, rt_numericE b h.2]
  case boolExpr r =>
    have hr : wfBoolItems true r = true := by simpa [wfArrayElem] using h
    rcases rt_boolNode r hr with ⟨b, rfl, henc⟩ | ⟨op, args, henc, harith, hdec⟩
    · rw [show encode (Expr.boolExpr (Expr.boolLit b)) = JsonVal.bool b from by simp [encode]]
      simp [decodeArrayElem]
    · rw [show encode (Expr.boolExpr r) = encode r from by simp [encode], henc]
      simp [decodeArrayElem, asStr, decodeArithNode_none harith, hdec]
  case geometry g =>
    have hg : isGeomJson g = true := by simpa [wfArrayElem] using h
    rw [show encode (Expr.geometry g) = g from by simp [encode]]
    rcases isGeomJson_shape hg with ⟨t, cs, rfl, ht⟩ | ⟨gs, rfl⟩
    · simp [decodeArrayElem, decodeGeomLit, ht]
    · simp [decodeArrayElem, decodeGeomLit]
  case bboxLit ns =>
    have hb : bboxOk ns = true := by simpa [wfArrayElem] using h
    rw [show encode (Expr.bboxLit ns) = .obj [("bbox", .arr (ns.map JsonVal.num))] from by
      simp [encode]]
    simp [decodeArrayElem, decodeIsNullKey, decodeBboxVal, decodeBbox_enc hb]
  case dateInstant d =>
    have hv : validPyDate d = true := by simpa [wfArrayElem] using h
    simp [encode, decodeArrayElem, decodeIsNullKey, asStr, data_mk, parseDate_formatDate hv]
  case timestampInstant t =>
    have hv : validPyDateTime t = true := by simpa [wfArrayElem] using h
    simp [encode, decodeArrayElem, decodeIsNullKey, asStr, data_mk,
      parseDT_pydanticFormatDT hv]
  case intervalInst a b =>
    simp only [wfArrayElem, Bool.and_eq_true] at h
    rw [show encode (Expr.intervalInst a b) =
        .obj [("interval", .arr [encode a, encode b])] from by simp [encode]]
    simp [decodeArrayElem, decodeIsNullKey, decodeIntervalPair,
      rt_intervalItem a h.1, rt_intervalItem b h.2]
  case arrayLit xs =>
    have hx : wfListArrayElem true xs = true := by simpa [wfArrayElem] using h
    rw [show encode (Expr.arrayLit xs) = .arr (encodeList xs) from by simp [encode]]
    simp [decodeArrayElem, rt_listArrayElem xs hx]
  all_goals simp [wfArrayElem] at h
termination_by 2 * sizeOf e
decreasing_by all_goals (simp_wf; try subst_vars; try simp_wf; try omega)

theorem rt_arrayItems (e : Expr) (h : wfArrayItems true e = true) :
    decodeArrayItems (encode e) = some e := by
  cases e
  case arrayLit xs =>
    have hx : wfListArrayElem true xs = true := by simpa [wfArrayItems] using h
    rw [show encode (Expr.arrayLit xs) = .arr (encodeList xs) from by simp [encode]]
    simp [decodeArrayItems, rt_listArrayElem xs hx]
  case propertyRef p => simp [encode, decodeArrayItems, asStr]
  case functionRef nm args =>
    have hf : wfFnArgs true args = true := by simpa [wfArrayItems] using h
    rw [encode_functionRef]
    simp [decodeArrayItems, rt_function nm args hf]
  all_goals simp [wfArrayItems] at h
termination_by 2 * sizeOf e
decreasing_by all_goals (simp_wf; try subst_vars; try simp_wf; try omega)

theorem rt_arrayExprC (e : Expr) (h : wfArrayExprC true e = true) :
    decodeArrayExprC (encode e) = some e := by
  cases e
  case arrayExpr a b =>
    simp only [wfArrayExprC, Bool.and_eq_true] at h
    rw [show encode (Expr.arrayExpr a b) =
        .obj [("root", .arr [encode a, encode b])] from by simp [encode]]
    simp [decodeArrayExprC, rt_arrayItems a h.1, rt_arrayItems b h.2]
  all_goals simp [wfArrayExprC] at h
termination_by 2 * sizeOf e
decreasing_by all_goals (simp_wf; try subst_vars; try simp_wf; try omega)

theorem rt_intervalItem (e : Expr) (h : wfIntervalItem true e = true) :
    decodeIntervalItem (encode e) = some e := by
  cases e
  case intervalItem v =>
    cases v
    case pyDT t =>
      have hv : validPyDateTime t = true := by simpa [wfIntervalItem, wfIntervalVal] using h
      rw [show encode (Expr.intervalItem (Expr.pyDT t)) =
          .str (String.mk (pydanticFormatDT t)) from by simp [encode]]
      simp [decodeIntervalItem, decodeIntervalStr, data_mk, parseDT_pydanticFormatDT hv]
    case pyDate d =>
      have hv : validPyDate d = true := by simpa [wfIntervalItem, wfIntervalVal] using h
      rw [show encode (Expr.intervalItem (Expr.pyDate d)) =
          .str (String.mk (formatDate d)) from by simp [encode]]
      simp [decodeIntervalItem, decodeIntervalStr, data_mk, parseDT_formatDate,
        parseDate_formatDate hv]
    case dotdot =>
      rw [show encode (Expr.intervalItem Expr.dotdot) = .str dotdotStr from by
        simp [encode]]
      simp [decodeIntervalItem, decodeIntervalStr, parseDT_dotdot, parseDate_dotdot]
    case propertyRef p =>
      rw [show encode (Expr.intervalItem (Expr.propertyRef p)) =
          .obj [("property", .str p)] from by simp [encode]]
      simp [decodeIntervalItem, asStr]
    case functionRef nm args =>
      have hf : wfFnArgs true args = true := by simpa [wfIntervalItem, wfIntervalVal] using h
      rw [show encode (Expr.intervalItem (Expr.functionRef nm args)) =
          .obj [("function", fnBody nm args)] from by
        rw [show encode (Expr.intervalItem (Expr.functionRef nm args)) =
            encode (Expr.functionRef nm args) from by simp [encode]]
        exact encode_functionRef nm args]
      simp [decodeIntervalItem, rt_function nm args hf]
    all_goals simp [wfIntervalItem, wfIntervalVal] at h
  all_goals simp [wfIntervalItem] at h
termination_by 2 * sizeOf e
decreasing_by all_goals (simp_wf; try subst_vars; try simp_wf; try omega)

theorem rt_function (nm : String) (args : Option (List Expr))
    (h : wfFnArgs true args = true) :
    decodeFunction (fnBody nm args) = some (.functionRef nm args) := by
  cases args
  case none => simp [fnBody, decodeFunction, asStr]
  case some xs =>
    have hx : wfListArrayElem true xs = true := by simpa [wfFnArgs] using h
    simp [fnBody, decodeFunction, asStr, rt_listArrayElem xs hx]
termination_by 2 * sizeOf args
decreasing_by all_goals (simp_wf; try subst_vars; try simp_wf; try omega)

theorem rt_listBeW (es : List Expr) (h : wfListBeW true es = true) :
    decodeListBeW (encodeList es) = some es := by
  cases es
  case nil => simp [encodeList, decodeListBeW]
  case cons e rest =>
    simp only [wfListBeW, Bool.and_eq_true] at h
    simp [encodeList, decodeListBeW, rt_beW e h.1, rt_listBeW rest h.2]
termination_by 2 * sizeOf es
decreasing_by all_goals (simp_wf; try subst_vars; try simp_wf; try omega)

theorem rt_listScalar (es : List Expr) (h : wfListScalar true es = true) :
    decodeListScalar (encodeList es) = some es := by
  cases es
  case nil => simp [encodeList, decodeListScalar]
  case cons e rest =>
    simp only [wfListScalar, Bool.and_eq_true] at h
    simp [encodeList, decodeListScalar, rt_scalar e h.1, rt_listScalar rest h.2]
termination_by 2 * sizeOf es
decreasing_by all_goals (simp_wf; try subst_vars; try simp_wf; try omega)

theorem rt_listArrayElem (es : List Expr) (h : wfListArrayElem true es = true) :
    decodeListArrayElem (encodeList es) = some es := by
  cases es
  case nil => simp [encodeList, decodeListArrayElem]
  case cons e rest =>
    simp only [wfListArrayElem, Bool.and_eq_true] at h
    simp [encodeList, decodeListArrayElem, rt_arrayElem e h.1, rt_listArrayElem rest h.2]
termination_by 2 * sizeOf es
decreasing_by all_goals (simp_wf; try subst_vars; try simp_wf; try omega)

end

/-! ## The cql2-text side: transformer and emitter

Models of the `Cql2Transformer` methods of `cql2_transformer.py` and the
`__str__` emitters of `cql2_pydantic.py`.  Where a behaviour depends on the
lark grammar `cql2.lark` (which is not among the sources), the definition
is modelled from the spec and says so. -/

/-- `make_char_literal` (cql2_pydantic.py): wrap in single quotes and
double every embedded quote (`string.replace("'", "''")`). -/
def escDouble : List Char → List Char
  | [] => []
  | c :: rest =>
      if c = squote then squote :: squote :: escDouble rest
      else c :: escDouble rest

/-- The emitted character literal, quotes included. -/
def make_char_literal (s : List Char) : List Char :=
  squote :: (escDouble s ++ [squote])

/-- `Cql2Transformer.CHARACTER_LITERAL`: Python `characters.strip("'")`
removes every leading and every trailing single quote from the lexed
token.  Modelled from the spec: the grammar lexes the whole single-quoted
literal (outer quotes included) as one token. -/
def CHARACTER_LITERAL (token : List Char) : List Char :=
  ((token.dropWhile (· = squote)).reverse.dropWhile (· = squote)).reverse

/-- `SIGNED_NUMBER = float`: every numeric token the lexer produces
becomes a Python float (the token's numeric value is abstracted as the
parsed float). -/
def SIGNED_NUMBER (f : PyFloat) : PyNum := .pfloat f

/-- `Cql2Transformer.negative`: `ArithmeticExpression(op="*",
args=(-1, arithmetic_operand))`, with the literal Python int `-1`. -/
def negative (arithmetic_operand : Expr) : Expr :=
  .arith .mul (.numLit (.pint (-1))) arithmetic_operand

/-- Python `str.lower()` on an ASCII operator token. -/
def pyLowerChar (c : Char) : Char :=
  if 65 ≤ c.toNat && c.toNat ≤ 90 then Char.ofNat (c.toNat + 32) else c

/-- Lowercasing of a token. -/
def pyLower (s : List Char) : List Char := s.map pyLowerChar

/-- Python `op.endswith("by")`. -/
def endsWithBy (s : List Char) : Bool :=
  decide (2 ≤ s.length) && decide (s.drop (s.length - 2) = [Char.ofNat 98, Char.ofNat 121])

/-- The special case in `temporal_predicate` / `array_predicate`:
`op = op[:-2] + "By"` when the lowered token ends with `by`. -/
def byFix (s : List Char) : List Char :=
  if endsWithBy s then s.take (s.length - 2) ++ [Char.ofNat 66, Char.ofNat 121] else s

/-- `Cql2Transformer.spatial_predicate`: the operator token is lowered and
looked up in `SpatialOperator`. -/
def spatial_predicate_op (token : List Char) : Option SpatialOp :=
  SpatialOp.ofStr (String.mk (pyLower token))

/-- `Cql2Transformer.temporal_predicate`: lowered, `..by` → `..By`, looked
up in `TemporalOperator`. -/
def temporal_predicate_op (token : List Char) : Option TemporalOp :=
  TemporalOp.ofStr (String.mk (byFix (pyLower token)))

/-- `Cql2Transformer.array_predicate`: lowered, `..by` → `..By`, looked up
in `ArrayOperator`. -/
def array_predicate_op (token : List Char) : Option ArrayOp :=
  ArrayOp.ofStr (String.mk (byFix (pyLower token)))

/-- `_make_boolean_expression`: wrap in a `BooleanExpression` unless the
value already is one. -/
def make_boolean_expression (e : Expr) : Expr :=
  match e with
  | .boolExpr r => .boolExpr r
  | _ => .boolExpr e

/-- `Cql2Transformer.boolean_expression`: an `or`-joined `AndOrExpression`
over the wrapped terms (only called with at least two terms). -/
def boolean_expression (boolean_terms : List Expr) : Expr :=
  .andOr .or (boolean_terms.map make_boolean_expression)

/-- `Cql2Transformer.boolean_term`: the `and` counterpart. -/
def boolean_term (boolean_factors : List Expr) : Expr :=
  .andOr .and (boolean_factors.map make_boolean_expression)

/-- Modelled from the spec: the grammar rule collects a contiguous run of
`OR`-joined terms; lark passes a run of length one up unchanged and calls
`boolean_expression` otherwise. -/
def orRunResult (terms : List Expr) : Expr :=
  match terms with
  | [t] => t
  | ts => boolean_expression ts

/-- Modelled from the spec: the `AND` counterpart of `orRunResult`. -/
def andRunResult (factors : List Expr) : Expr :=
  match factors with
  | [t] => t
  | ts => boolean_term ts

/-- `Cql2Transformer.in_list`: `IsInListPredicate(op="in", args=(e, list))`.
The grammar (modelled from the spec) always supplies at least one list
element. -/
def in_list (scalar_expression : Expr) (list_values : List Expr) : Expr :=
  .isInList scalar_expression list_values

/-- Python `strptime`'s `%f`: one to six digits, scaled to microseconds
(right-padded with zeros). -/
def parseMicro (ds : List Char) : Option Nat :=
  if 1 ≤ ds.length && ds.length ≤ 6 && ds.all isDigit then
    some ((ds.foldl (fun acc c => acc * 10 + digitVal c) 0) * 10 ^ (6 - ds.length))
  else none

/-- `strptime(s, "%Y-%m-%dT%H:%M:%S.%f")`: the 19-character core, a dot,
then `%f`.  The result is naive (no tzinfo). -/
def strptime_dt (cs : List Char) : Option PyDateTime :=
  match cs with
  | y1 :: y2 :: y3 :: y4 :: d1 :: m1 :: m2 :: d2 :: dd1 :: dd2 :: tt :: h1 :: h2 :: c1 :: mi1 :: mi2 :: c2 :: s1 :: s2 :: dot :: rest =>
      if d1 = Char.ofNat 45 && d2 = Char.ofNat 45 && tt = Char.ofNat 84 &&
          c1 = Char.ofNat 58 && c2 = Char.ofNat 58 && dot = Char.ofNat 46 then
        match parse4 [y1, y2, y3, y4], parse2 [m1, m2], parse2 [dd1, dd2],
            parse2 [h1, h2], parse2 [mi1, mi2], parse2 [s1, s2], parseMicro rest with
        | some y, some mo, some d, some h, some mi, some sec, some micro =>
            some ⟨y, mo, d, h, mi, sec, micro, none⟩
        | _, _, _, _, _, _, _ => none
      else none
  | _ => none

/-- `Cql2Transformer.DATE_TIME`: drop the trailing character (the grammar,
modelled from the spec, guarantees it is `Z`), append `.0` when no decimal
seconds are present, `strptime`, and `replace(tzinfo=timezone.utc)`. -/
def DATE_TIME (token : List Char) : Option PyDateTime :=
  let body := token.dropLast
  let body2 :=
    if body.contains (Char.ofNat 46) then body
    else body ++ [Char.ofNat 46, Char.ofNat 48]
  (strptime_dt body2).map (fun t => { t with tzOffset := some 0 })

/-- `TimestampInstant.__str__`:
`f"TIMESTAMP('{timestamp.strftime("%Y-%m-%dT%H:%M:%S.%fZ")}')"`. -/
def timestampInstantStr (t : PyDateTime) : List Char :=
  "TIMESTAMP(".data ++ [squote] ++ strftimeZ t ++ [squote, Char.ofNat 41]

/-- The datetime branch of `IntervalArrayItems.__str__`:
`f"'{root.strftime("%Y-%m-%dT%H:%M:%S.%fZ")}'"`. -/
def intervalItemStrDT (t : PyDateTime) : List Char :=
  [squote] ++ strftimeZ t ++ [squote]

/-! ## Integers occurring in a text-built AST (for the unary-minus claim) -/

mutual

/-- Every Python `int` payload occurring in a JSON value. -/
def jsonIntsIn : JsonVal → List Int
  | .num (.pint i) => [i]
  | .arr xs => jsonIntsInList xs
  | .obj kvs => jsonIntsInKVs kvs
  | _ => []

/-- Ints of a JSON list. -/
def jsonIntsInList : List JsonVal → List Int
  | [] => []
  | x :: xs => jsonIntsIn x ++ jsonIntsInList xs

/-- Ints of a JSON object's values. -/
def jsonIntsInKVs : List (String × JsonVal) → List Int
  | [] => []
  | (_, v) :: kvs => jsonIntsIn v ++ jsonIntsInKVs kvs

end

/-- The integers an AST carries are the integers of its JSON encoding
(`encode` forwards every number in `numLit`, `bboxLit` and geometry
coordinates). -/
def intsIn (e : Expr) : List Int := jsonIntsIn (encode e)

/-- An AST value reachable as output of the `Cql2Transformer` build
methods: one rule per transformer method of `cql2_transformer.py`.
Numeric leaves arise only from `SIGNED_NUMBER` (always a float), from the
`-1` of `negative`, and from the float coordinate lists of `bbox` and the
WKT geometries. -/
inductive TextBuilt : Expr → Prop where
  | boolean_literal (b : Bool) : TextBuilt (.boolLit b)
  | signed_number (f : PyFloat) : TextBuilt (.numLit (SIGNED_NUMBER f))
  | character_literal (s : String) : TextBuilt (.strLit s)
  | char_expression {r : Expr} : TextBuilt r → TextBuilt (.charExpr r)
  | pattern_expression {r : Expr} : TextBuilt r → TextBuilt (.patternExpr r)
  | bool_wrap {e : Expr} : TextBuilt e → TextBuilt (.boolExpr e)
  | or_run {ts : List Expr} : (∀ e ∈ ts, TextBuilt e) →
      TextBuilt (boolean_expression ts)
  | and_run {ts : List Expr} : (∀ e ∈ ts, TextBuilt e) →
      TextBuilt (boolean_term ts)
  | not_node {e : Expr} : TextBuilt e →
      TextBuilt (.notE (make_boolean_expression e))
  | bin_cmp (op : CmpOp) {a b : Expr} : TextBuilt a → TextBuilt b →
      TextBuilt (.binCmp op a b)
  | like_node {a b : Expr} : TextBuilt a → TextBuilt b → TextBuilt (.isLike a b)
  | not_like_node {a b : Expr} : TextBuilt a → TextBuilt b →
      TextBuilt (.notE (.boolExpr (.isLike a b)))
  | between_node {a b c : Expr} : TextBuilt a → TextBuilt b → TextBuilt c →
      TextBuilt (.isBetween a b c)
  | not_between_node {a b c : Expr} : TextBuilt a → TextBuilt b → TextBuilt c →
      TextBuilt (.notE (.boolExpr (.isBetween a b c)))
  | in_list_node {a : Expr} {l : List Expr} : TextBuilt a →
      (∀ e ∈ l, TextBuilt e) → TextBuilt (in_list a l)
  | not_in_list_node {a : Expr} {l : List Expr} : TextBuilt a →
      (∀ e ∈ l, TextBuilt e) → TextBuilt (.notE (.boolExpr (in_list a l)))
  | is_null_node {a : Expr} : TextBuilt a → TextBuilt (.isNull a)
  | is_not_null_node {a : Expr} : TextBuilt a →
      TextBuilt (.notE (.boolExpr (.isNull a)))
  | spatial_node (op : SpatialOp) {a b : Expr} : TextBuilt a → TextBuilt b →
      TextBuilt (.spatialPred op a b)
  | temporal_node (op : TemporalOp) {a b : Expr} : TextBuilt a → TextBuilt b →
      TextBuilt (.temporalPred op a b)
  | array_node (op : ArrayOp) {a b : Expr} : TextBuilt a → TextBuilt b →
      TextBuilt (.arrayPred op (.arrayExpr a b))
  | array_lit {xs : List Expr} : (∀ e ∈ xs, TextBuilt e) →
      TextBuilt (.arrayLit xs)
  | arith_node (op : ArithOp) {a b : Expr} : TextBuilt a → TextBuilt b →
      TextBuilt (.arith op a b)
  | negative_node {x : Expr} : TextBuilt x → TextBuilt (negative x)
  | function_node (nm : String) {args : List Expr} :
      (∀ e ∈ args, TextBuilt e) → TextBuilt (.functionRef nm (some args))
  | function_node_noargs (nm : String) : TextBuilt (.functionRef nm none)
  | property_name (p : String) : TextBuilt (.propertyRef p)
  | casei_node {x : Expr} : TextBuilt x → TextBuilt (.casei x)
  | accenti_node {x : Expr} : TextBuilt x → TextBuilt (.accenti x)
  | date_instant (d : PyDate) : TextBuilt (.dateInstant d)
  | timestamp_instant (t : PyDateTime) : TextBuilt (.timestampInstant t)
  | interval_instance {a b : Expr} : TextBuilt a → TextBuilt b →
      TextBuilt (.intervalInst a b)
  | interval_item {v : Expr} : TextBuilt v → TextBuilt (.intervalItem v)
  | dt_leaf (t : PyDateTime) : TextBuilt (.pyDT t)
  | date_leaf (d : PyDate) : TextBuilt (.pyDate d)
  | dotdot_leaf : TextBuilt .dotdot
  | bbox_node {ns : List PyNum} : ns.all isPfloat = true →
      TextBuilt (.bboxLit ns)
  | geometry_node {g : JsonVal} : jsonIntsIn g = [] → TextBuilt (.geometry g)

theorem encode_mbe (e : Expr) :
    encode (make_boolean_expression e) = encode e := by
  cases e <;> simp [make_boolean_expression, encode]

theorem mem_ints_encodeList {i : Int} {es : List Expr}
    (h : i ∈ jsonIntsInList (encodeList es)) :
    ∃ e ∈ es, i ∈ jsonIntsIn (encode e) := by
  induction es with
  | nil => simp [encodeList, jsonIntsInList] at h
  | cons e rest ih =>
      simp only [encodeList, jsonIntsInList, List.mem_append] at h
      rcases h with h | h
      · exact ⟨e, by simp, h⟩
      · obtain ⟨e2, he2, hi⟩ := ih h
        exact ⟨e2, by simp [he2], hi⟩

theorem mem_ints_encodeList_mbe {i : Int} {ts : List Expr}
    (h : i ∈ jsonIntsInList (encodeList (ts.map make_boolean_expression))) :
    ∃ t ∈ ts, i ∈ jsonIntsIn (encode t) := by
  obtain ⟨e, he, hi⟩ := mem_ints_encodeList h
  obtain ⟨t, ht, rfl⟩ := List.mem_map.mp he
  exact ⟨t, ht, by rwa [encode_mbe] at hi⟩

theorem jsonIntsInList_map_num {ns : List PyNum} (h : ns.all isPfloat = true) :
    jsonIntsInList (ns.map JsonVal.num) = [] := by
  induction ns with
  | nil => rfl
  | cons n rest ih =>
      simp only [List.all_cons, Bool.and_eq_true] at h
      match n, h.1 with
      | .pfloat f, _ =>
          simp [jsonIntsInList, jsonIntsIn, ih h.2]

/-- Every integer occurring (in the JSON-encoding sense) in a text-built
AST is the `-1` introduced by the unary-minus rewrite. -/
theorem textBuilt_ints {e : Expr} (h : TextBuilt e) : ∀ i ∈ intsIn e, i = -1 := by
  induction h with
  | boolean_literal b => intro i hi; simp [intsIn, encode, jsonIntsIn] at hi
  | signed_number f =>
      intro i hi; simp [intsIn, encode, SIGNED_NUMBER, jsonIntsIn] at hi
  | character_literal s => intro i hi; simp [intsIn, encode, jsonIntsIn] at hi
  | char_expression _ ih =>
      intro i hi; exact ih i (by simpa [intsIn, encode] using hi)
  | pattern_expression _ ih =>
      intro i hi; exact ih i (by simpa [intsIn, encode] using hi)
  | bool_wrap _ ih =>
      intro i hi; exact ih i (by simpa [intsIn, encode] using hi)
  | or_run _ ih =>
      intro i hi
      simp only [intsIn, boolean_expression, encode, jsonIntsIn, jsonIntsInKVs,
        jsonIntsInList, List.append_nil, List.nil_append] at hi
      obtain ⟨t, ht, hit⟩ := mem_ints_encodeList_mbe hi
      exact ih t ht i hit
  | and_run _ ih =>
      intro i hi
      simp only [intsIn, boolean_term, encode, jsonIntsIn, jsonIntsInKVs,
        jsonIntsInList, List.append_nil, List.nil_append] at hi
      obtain ⟨t, ht, hit⟩ := mem_ints_encodeList_mbe hi
      exact ih t ht i hit
  | not_node _ ih =>
      intro i hi
      simp only [intsIn, encode, encode_mbe, jsonIntsIn, jsonIntsInKVs,
        jsonIntsInList, List.append_nil, List.nil_append] at hi
      exact ih i hi
  | bin_cmp op _ _ iha ihb =>
      intro i hi
      simp only [intsIn, encode, jsonIntsIn, jsonIntsInKVs, jsonIntsInList,
        List.append_nil, List.nil_append, List.mem_append] at hi
      rcases hi with hi | hi
      · exact iha i hi
      · exact ihb i hi
  | like_node _ _ iha ihb =>
      intro i hi
      simp only [intsIn, encode, jsonIntsIn, jsonIntsInKVs, jsonIntsInList,
        List.append_nil, List.nil_append, List.mem_append] at hi
      rcases hi with hi | hi
      · exact iha i hi
      · exact ihb i hi
  | not_like_node _ _ iha ihb =>
      intro i hi
      simp only [intsIn, encode, jsonIntsIn, jsonIntsInKVs, jsonIntsInList,
        List.append_nil, List.nil_append, List.mem_append] at hi
      rcases hi with hi | hi
      · exact iha i hi
      · exact ihb i hi
  | between_node _ _ _ iha ihb ihc =>
      intro i hi
      simp only [intsIn, encode, jsonIntsIn, jsonIntsInKVs, jsonIntsInList,
        List.append_nil, List.nil_append, List.mem_append] at hi
      rcases hi with hi | hi | hi
      · exact iha i hi
      · exact ihb i hi
      · exact ihc i hi
  | not_between_node _ _ _ iha ihb ihc =>
      intro i hi
      simp only [intsIn, encode, jsonIntsIn, jsonIntsInKVs, jsonIntsInList,
        List.append_nil, List.nil_append, List.mem_append] at hi
      rcases hi with hi | hi | hi
      · exact iha i hi
      · exact ihb i hi
      · exact ihc i hi
  | in_list_node _ _ iha ihl =>
      intro i hi
      simp only [intsIn, in_list, encode, jsonIntsIn, jsonIntsInKVs,
        jsonIntsInList, List.append_nil, List.nil_append, List.mem_append] at hi
      rcases hi with hi | hi
      · exact iha i hi
      · obtain ⟨t, ht, hit⟩ := mem_ints_encodeList hi
        exact ihl t ht i hit
  | not_in_list_node _ _ iha ihl =>
      intro i hi
      simp only [intsIn, in_list, encode, jsonIntsIn, jsonIntsInKVs,
        jsonIntsInList, List.append_nil, List.nil_append, List.mem_append] at hi
      rcases hi with hi | hi
      · exact iha i hi
      · obtain ⟨t, ht, hit⟩ := mem_ints_encodeList hi
        exact ihl t ht i hit
  | is_null_node _ ih =>
      intro i hi
      simp only [intsIn, encode, jsonIntsIn, jsonIntsInKVs, jsonIntsInList,
        List.append_nil, List.nil_append] at hi
      exact ih i hi
  | is_not_null_node _ ih =>
      intro i hi
      simp only [intsIn, encode, jsonIntsIn, jsonIntsInKVs, jsonIntsInList,
        List.append_nil, List.nil_append] at hi
      exact ih i hi
  | spatial_node op _ _ iha ihb =>
      intro i hi
      simp only [intsIn, encode, jsonIntsIn, jsonIntsInKVs, jsonIntsInList,
        List.append_nil, List.nil_append, List.mem_append] at hi
      rcases hi with hi | hi
      · exact iha i hi
      · exact ihb i hi
  | temporal_node op _ _ iha ihb =>
      intro i hi
      simp only [intsIn, encode, jsonIntsIn, jsonIntsInKVs, jsonIntsInList,
        List.append_nil, List.nil_append, List.mem_append] at hi
      rcases hi with hi | hi
      · exact iha i hi
      · exact ihb i hi
  | array_node op _ _ iha ihb =>
      intro i hi
      simp only [intsIn, encode, jsonIntsIn, jsonIntsInKVs, jsonIntsInList,
        List.append_nil, List.nil_append, List.mem_append] at hi
      rcases hi with hi | hi
      · exact iha i hi
      · exact ihb i hi
  | array_lit _ ih =>
      intro i hi
      simp only [intsIn, encode, jsonIntsIn] at hi
      obtain ⟨t, ht, hit⟩ := mem_ints_encodeList hi
      exact ih t ht i hit
  | arith_node op _ _ iha ihb =>
      intro i hi
      simp only [intsIn, encode, jsonIntsIn, jsonIntsInKVs, jsonIntsInList,
        List.append_nil, List.nil_append, List.mem_append] at hi
      rcases hi with hi | hi
      · exact iha i hi
      · exact ihb i hi
  | negative_node _ ih =>
      intro i hi
      simp only [intsIn, negative, encode, jsonIntsIn, jsonIntsInKVs,
        jsonIntsInList, List.append_nil, List.nil_append, List.mem_append,
        List.mem_cons, List.not_mem_nil, or_false] at hi
      rcases hi with hi | hi
      · exact hi
      · exact ih i hi
  | function_node nm _ ih =>
      intro i hi
      simp only [intsIn, encode, jsonIntsIn, jsonIntsInKVs, jsonIntsInList,
        List.append_nil, List.nil_append] at hi
      obtain ⟨t, ht, hit⟩ := mem_ints_encodeList hi
      exact ih t ht i hit
  | function_node_noargs nm => intro i hi; simp [intsIn, encode, jsonIntsIn,
      jsonIntsInKVs, jsonIntsInList] at hi
  | property_name p => intro i hi; simp [intsIn, encode, jsonIntsIn,
      jsonIntsInKVs, jsonIntsInList] at hi
  | casei_node _ ih =>
      intro i hi
      simp only [intsIn, encode, jsonIntsIn, jsonIntsInKVs, jsonIntsInList,
        List.append_nil, List.nil_append] at hi
      exact ih i hi
  | accenti_node _ ih =>
      intro i hi
      simp only [intsIn, encode, jsonIntsIn, jsonIntsInKVs, jsonIntsInList,
        List.append_nil, List.nil_append] at hi
      exact ih i hi
  | date_instant d => intro i hi; simp [intsIn, encode, jsonIntsIn,
      jsonIntsInKVs, jsonIntsInList] at hi
  | timestamp_instant t => intro i hi; simp [intsIn, encode, jsonIntsIn,
      jsonIntsInKVs, jsonIntsInList] at hi
  | interval_instance _ _ iha ihb =>
      intro i hi
      simp only [intsIn, encode, jsonIntsIn, jsonIntsInKVs, jsonIntsInList,
        List.append_nil, List.nil_append, List.mem_append] at hi
      rcases hi with hi | hi
      · exact iha i hi
      · exact ihb i hi
  | interval_item _ ih =>
      intro i hi; exact ih i (by simpa [intsIn, encode] using hi)
  | dt_leaf t => intro i hi; simp [intsIn, encode, jsonIntsIn] at hi
  | date_leaf d => intro i hi; simp [intsIn, encode, jsonIntsIn] at hi
  | dotdot_leaf => intro i hi; simp [intsIn, encode, jsonIntsIn] at hi
  | bbox_node hns =>
      intro i hi
      simp [intsIn, encode, jsonIntsIn, jsonIntsInKVs,
        jsonIntsInList_map_num hns] at hi
  | geometry_node hg =>
      intro i hi
      simp [intsIn, encode, hg] at hi

set_option maxHeartbeats 1600000 in
theorem decodeListBeW_length {xs : List JsonVal} {es : List Expr}
    (h : decodeListBeW xs = some es) : es.length = xs.length := by
  induction xs generalizing es with
  | nil => simp [decodeListBeW] at h; simp [← h]
  | cons x rest ih =>
      rw [decodeListBeW] at h
      cases h1 : decodeBeW x with
      | none => rw [h1] at h; simp at h
      | some e =>
          rw [h1] at h
          cases h2 : decodeListBeW rest with
          | none => rw [h2] at h; simp at h
          | some es2 =>
              rw [h2] at h
              simp at h
              subst h
              simp [ih h2]

theorem SpatialOp.spatial_toStr_ofStr {s : String} {op : SpatialOp}
    (h : SpatialOp.ofStr s = some op) : op.toStr = s := by
  unfold SpatialOp.ofStr at h
  split_ifs at h <;>
    first
      | (obtain rfl := Option.some.inj h; subst_vars; rfl)
      | exact Option.noConfusion h

set_option maxHeartbeats 1600000 in
theorem TemporalOp.temporal_toStr_ofStr {s : String} {op : TemporalOp}
    (h : TemporalOp.ofStr s = some op) : op.toStr = s := by
  unfold TemporalOp.ofStr at h
  by_cases h1 : s = "t_after"
  · rw [if_pos h1] at h
    obtain rfl := Option.some.inj h
    rw [h1]
    rfl
  · rw [if_neg h1] at h
    by_cases h2 : s = "t_before"
    · rw [if_pos h2] at h
      obtain rfl := Option.some.inj h
      rw [h2]
      rfl
    · rw [if_neg h2] at h
      by_cases h3 : s = "t_contains"
      · rw [if_pos h3] at h
        obtain rfl := Option.some.inj h
        rw [h3]
        rfl
      · rw [if_neg h3] at h
        by_cases h4 : s = "t_disjoint"
        · rw [if_pos h4] at h
          obtain rfl := Option.some.inj h
          rw [h4]
          rfl
        · rw [if_neg h4] at h
          by_cases h5 : s = "t_during"
          · rw [if_pos h5] at h
            obtain rfl := Option.some.inj h
            rw [h5]
            rfl
          · rw [if_neg h5] at h
            by_cases h6 : s = "t_equals"
            · rw [if_pos h6] at h
              obtain rfl := Option.some.inj h
              rw [h6]
              rfl
            · rw [if_neg h6] at h
              by_cases h7 : s = "t_finishedBy"
              · rw [if_pos h7] at h
                obtain rfl := Option.some.inj h
                rw [h7]
                rfl
              · rw [if_neg h7] at h
                by_cases h8 : s = "t_finishes"
                · rw [if_pos h8] at h
                  obtain rfl := Option.some.inj h
                  rw [h8]
                  rfl
                · rw [if_neg h8] at h
                  by_cases h9 : s = "t_intersects"
                  · rw [if_pos h9] at h
                    obtain rfl := Option.some.inj h
                    rw [h9]
                    rfl
                  · rw [if_neg h9] at h
                    by_cases h10 : s = "t_meets"
                    · rw [if_pos h10] at h
                      obtain rfl := Option.some.inj h
                      rw [h10]
                      rfl
                    · rw [if_neg h10] at h
                      by_cases h11 : s = "t_metBy"
                      · rw [if_pos h11] at h
                        obtain rfl := Option.some.inj h
                        rw [h11]
                        rfl
                      · rw [if_neg h11] at h
                        by_cases h12 : s = "t_overlappedBy"
                        · rw [if_pos h12] at h
                          obtain rfl := Option.some.inj h
                          rw [h12]
                          rfl
                        · rw [if_neg h12] at h
                          by_cases h13 : s = "t_overlaps"
                          · rw [if_pos h13] at h
                            obtain rfl := Option.some.inj h
                            rw [h13]
                            rfl
                          · rw [if_neg h13] at h
                            by_cases h14 : s = "t_startedBy"
                            · rw [if_pos h14] at h
                              obtain rfl := Option.some.inj h
                              rw [h14]
                              rfl
                            · rw [if_neg h14] at h
                              by_cases h15 : s = "t_starts"
                              · rw [if_pos h15] at h
                                obtain rfl := Option.some.inj h
                                rw [h15]
                                rfl
                              · rw [if_neg h15] at h
                                exact Option.noConfusion h

theorem ArrayOp.array_toStr_ofStr {s : String} {op : ArrayOp}
    (h : ArrayOp.ofStr s = some op) : op.toStr = s := by
  unfold ArrayOp.ofStr at h
  split_ifs at h <;>
    first
      | (obtain rfl := Option.some.inj h; subst_vars; rfl)
      | exact Option.noConfusion h


/-! ## The claims -/

/-- C1: the character-literal text round trip is broken.  `make_char_literal`
doubles every embedded quote and adds outer quotes, but the transformer's
`CHARACTER_LITERAL` merely strips the outer quotes and never collapses the
doubled ones: the string `a` quote `b` quote quote `c` parses back with every
embedded quote doubled instead of restored. -/
theorem c1_char_literal_roundtrip_bug :
    make_char_literal [Char.ofNat 97, squote, Char.ofNat 98, squote, squote, Char.ofNat 99] =
      [squote, Char.ofNat 97, squote, squote, Char.ofNat 98, squote, squote,
        squote, squote, Char.ofNat 99, squote] ∧
    CHARACTER_LITERAL (make_char_literal
        [Char.ofNat 97, squote, Char.ofNat 98, squote, squote, Char.ofNat 99]) =
      [Char.ofNat 97, squote, squote, Char.ofNat 98, squote, squote, squote,
        squote, Char.ofNat 99] ∧
    CHARACTER_LITERAL (make_char_literal
        [Char.ofNat 97, squote, Char.ofNat 98, squote, squote, Char.ofNat 99]) ≠
      [Char.ofNat 97, squote, Char.ofNat 98, squote, squote, Char.ofNat 99] := by
  refine ⟨by decide, by decide, by decide⟩

/-- C2 counterexample: a well-formed AST that carries a `PropertyRef` under a
`CharacterExpression` wrapper encodes to the same JSON as the bare
`PropertyRef` (RootModel wrappers are erased by `model_dump`), and the
decoder resolves that JSON to the bare form, so decoding the encoding does
not restore the value. -/
theorem c2_counterexample :
    wf (.boolExpr (.binCmp .eq (.charExpr (.propertyRef "x")) (.numLit (.pint 1)))) = true ∧
    decodeBE (encode (.boolExpr
        (.binCmp .eq (.charExpr (.propertyRef "x")) (.numLit (.pint 1))))) ≠
      some (.boolExpr (.binCmp .eq (.charExpr (.propertyRef "x")) (.numLit (.pint 1)))) := by
  constructor
  · simp [wf, wfBeW, wfBoolItems, wfScalar, wfCharItems]
  · have hdec : decodeBE (encode (.boolExpr
        (.binCmp .eq (.charExpr (.propertyRef "x")) (.numLit (.pint 1))))) =
        some (.boolExpr (.binCmp .eq (.propertyRef "x") (.numLit (.pint 1)))) := by
      simp [decodeBE, encode, CmpOp.toStr, decodeBeW, asStr, decodeBoolNode,
        CmpOp.ofStr, decodeCmpNode, decodeScalar, decodeScalarKey]
    rw [hdec]
    simp

/-- C2 (amended): decoding the encoding does not restore every well-formed
AST (see the counterexample), but it does restore every canonical AST: one
in which each union-overlapping value sits in the union member the decoder's
leftmost-first resolution produces. -/
theorem c2_json_roundtrip (a : Expr) (h : canon a = true) :
    decodeBE (encode a) = some a :=
  rt_beW a h

theorem c2_witness :
    canon (.boolExpr (.binCmp .eq (.propertyRef "city") (.charExpr (.strLit "x")))) = true ∧
    decodeBE (encode (.boolExpr
        (.binCmp .eq (.propertyRef "city") (.charExpr (.strLit "x"))))) =
      some (.boolExpr (.binCmp .eq (.propertyRef "city") (.charExpr (.strLit "x")))) := by
  have hc : canon (.boolExpr
      (.binCmp .eq (.propertyRef "city") (.charExpr (.strLit "x")))) = true := by
    simp [canon, wfBeW, wfBoolItems, wfScalar, wfCharItems, isPropOrFn]
  exact ⟨hc, c2_json_roundtrip _ hc⟩

/-- C3 counterexample: the JSON decoder accepts an `in` whose list of values
is empty (`IsInListPredicate` puts no `min_length` on its list), contrary to
the claimed rejection. -/
theorem c3_counterexample :
    decodeBE (.obj [("op", .str "in"),
        ("args", .arr [.obj [("property", .str "p")], .arr []])]) =
      some (.boolExpr (.isInList (.propertyRef "p") [])) := by
  simp [decodeBE, decodeBeW, asStr, decodeBoolNode, CmpOp.ofStr, decodeInNode,
    decodeScalar, decodeScalarKey, decodeListScalar]

/-- C3 (amended): on the text path `in_list` passes the (grammar-supplied,
non-empty) value list through unchanged, so text-parsed `IsInList` nodes have
a non-empty list; the JSON decoder, however, does not enforce non-emptiness
and accepts an empty list of values. -/
theorem c3_inlist (a : Expr) (l : List Expr) (h : l ≠ []) :
    (in_list a l = .isInList a l ∧ l ≠ []) ∧
    decodeBE (.obj [("op", .str "in"),
        ("args", .arr [.num (.pfloat ⟨1, 0⟩), .arr []])]) =
      some (.boolExpr (.isInList (.numLit (.pfloat ⟨1, 0⟩)) [])) := by
  refine ⟨⟨rfl, h⟩, ?_⟩
  simp [decodeBE, decodeBeW, asStr, decodeBoolNode, CmpOp.ofStr, decodeInNode,
    decodeScalar, decodeListScalar]

theorem c3_witness :
    (in_list (.propertyRef "p") [.numLit (.pfloat ⟨2, 0⟩)] =
        .isInList (.propertyRef "p") [.numLit (.pfloat ⟨2, 0⟩)] ∧
      ([Expr.numLit (.pfloat ⟨2, 0⟩)] : List Expr) ≠ []) ∧
    decodeBE (.obj [("op", .str "in"),
        ("args", .arr [.num (.pfloat ⟨1, 0⟩), .arr []])]) =
      some (.boolExpr (.isInList (.numLit (.pfloat ⟨1, 0⟩)) [])) :=
  c3_inlist (.propertyRef "p") [.numLit (.pfloat ⟨2, 0⟩)] (by simp)

/-- C4: the decoder refuses type coercions.  A JSON boolean in a numeric
position (`NumericExpression`, a union of `StrictFloat` and `StrictInt`) is
rejected; a JSON number in a string position (`CharacterExpression`,
`PatternExpression`, any `StrictStr` field) is rejected; two end-to-end
inputs show a `between` with a boolean bound and a `like` with a numeric
pattern failing to decode. -/
theorem c4_strict_typing :
    (∀ b : Bool, decodeNumericE (.bool b) = none) ∧
    (∀ n : PyNum, decodeCharW (.num n) = none) ∧
    (∀ n : PyNum, decodePatternW (.num n) = none) ∧
    (∀ n : PyNum, asStr (.num n) = none) ∧
    (∀ b : Bool, asStr (.bool b) = none) ∧
    decodeBE (.obj [("op", .str "between"),
        ("args", .arr [.bool true, .num (.pfloat ⟨1, 0⟩), .num (.pfloat ⟨2, 0⟩)])]) = none ∧
    decodeBE (.obj [("op", .str "like"),
        ("args", .arr [.obj [("property", .str "x")], .num (.pint 5)])]) = none := by
  refine ⟨fun b => by simp [decodeNumericE], fun n => by simp [decodeCharW],
    fun n => by simp [decodePatternW], fun n => rfl, fun b => rfl, ?_, ?_⟩
  · simp [decodeBE, decodeBeW, asStr, decodeBoolNode, CmpOp.ofStr,
      decodeBetweenNode, decodeNumericE]
  · simp [decodeBE, decodeBeW, asStr, decodeBoolNode, CmpOp.ofStr,
      decodeLikeNode, decodeCharW, decodeCharKey, decodePatternW]

/-- C5 counterexample: the JSON decoder accepts a timestamp with a non-`Z`
offset (pydantic validates `datetime` fields from any ISO offset) and stores
that offset, so decoded timestamps are not always UTC. -/
theorem c5_counterexample :
    decodeBE (.obj [("op", .str "t_after"),
        ("args", .arr [.obj [("property", .str "x")],
          .obj [("timestamp", .str "2020-01-01T00:00:00+05:00")]])]) =
      some (.boolExpr (.temporalPred .tAfter (.propertyRef "x")
        (.timestampInstant ⟨2020, 1, 1, 0, 0, 0, 0, some 300⟩))) ∧
    (⟨2020, 1, 1, 0, 0, 0, 0, some 300⟩ : PyDateTime).tzOffset ≠ some 0 := by
  constructor
  · have hp : parseDT ("2020-01-01T00:00:00+05:00".data) =
        some ⟨2020, 1, 1, 0, 0, 0, 0, some 300⟩ := by decide
    simp [decodeBE, decodeBeW, asStr, decodeBoolNode, CmpOp.ofStr,
      SpatialOp.ofStr, TemporalOp.ofStr, decodeTemporalNode, decodeTemporalE,
      decodeTemporalKey, hp]
  · decide

/-- C5 (amended): only the text path forces UTC: every datetime produced by
the transformer's `DATE_TIME` carries offset zero, while the JSON decoder
also accepts non-`Z` offsets (see the counterexample) — here it accepts a
`+05:00` timestamp, storing its offset of 300 minutes. -/
theorem c5_timestamps (tok : List Char) (t : PyDateTime)
    (h : DATE_TIME tok = some t) :
    t.tzOffset = some 0 ∧
    decodeTemporalE (.obj [("timestamp", .str "2020-01-02T03:04:05+05:00")]) =
      some (.timestampInstant ⟨2020, 1, 2, 3, 4, 5, 0, some 300⟩) := by
  constructor
  · simp only [DATE_TIME] at h
    rcases Option.map_eq_some'.mp h with ⟨t0, h0, rfl⟩
    rfl
  · have hp : parseDT ("2020-01-02T03:04:05+05:00".data) =
        some ⟨2020, 1, 2, 3, 4, 5, 0, some 300⟩ := by decide
    simp [decodeTemporalE, decodeTemporalKey, asStr, hp]

theorem c5_witness :
    (⟨2020, 1, 1, 0, 0, 0, 0, some 0⟩ : PyDateTime).tzOffset = some 0 ∧
    decodeTemporalE (.obj [("timestamp", .str "2020-01-02T03:04:05+05:00")]) =
      some (.timestampInstant ⟨2020, 1, 2, 3, 4, 5, 0, some 300⟩) :=
  c5_timestamps ("2020-01-01T00:00:00Z".data) ⟨2020, 1, 1, 0, 0, 0, 0, some 0⟩
    (by decide)

/-- C6: the transformer rewrites a unary minus on `x` into the arithmetic
node with operator `*` and argument pair `(-1, x)` — there is no dedicated
unary-minus constructor — and its JSON encoding is the corresponding
two-argument `*` object. -/
theorem c6_negative (x : Expr) :
    negative x = .arith .mul (.numLit (.pint (-1))) x ∧
    ArithOp.mul.toStr = "*" ∧
    encode (negative x) =
      .obj [("op", .str "*"), ("args", .arr [.num (.pint (-1)), encode x])] := by
  refine ⟨rfl, rfl, ?_⟩
  simp [negative, encode, ArithOp.toStr]

/-- C7: whenever a spatial, temporal or array operator token (any letter
case) is accepted, the stored operator's name is the lowercased token with a
trailing `by` camel-cased (`byFix`); in particular `T_METBY` yields
`t_metBy` and `A_CONTAINEDBY` yields `a_containedBy`. -/
theorem c7_operator_canonicalization :
    (∀ (tok : List Char) (op : SpatialOp), spatial_predicate_op tok = some op →
      op.toStr = String.mk (pyLower tok)) ∧
    (∀ (tok : List Char) (op : TemporalOp), temporal_predicate_op tok = some op →
      op.toStr = String.mk (byFix (pyLower tok))) ∧
    (∀ (tok : List Char) (op : ArrayOp), array_predicate_op tok = some op →
      op.toStr = String.mk (byFix (pyLower tok))) ∧
    temporal_predicate_op ("T_METBY".data) = some .tMetBy ∧
    TemporalOp.tMetBy.toStr = "t_metBy" ∧
    array_predicate_op ("A_CONTAINEDBY".data) = some .aContainedBy ∧
    ArrayOp.aContainedBy.toStr = "a_containedBy" := by
  refine ⟨?_, ?_, ?_, by decide, rfl, by decide, rfl⟩
  · intro tok op h
    exact SpatialOp.spatial_toStr_ofStr h
  · intro tok op h
    exact TemporalOp.temporal_toStr_ofStr h
  · intro tok op h
    exact ArrayOp.array_toStr_ofStr h

theorem c7_witness :
    TemporalOp.tMetBy.toStr = String.mk (byFix (pyLower ("T_METBY".data))) ∧
    ArrayOp.aContainedBy.toStr = String.mk (byFix (pyLower ("A_CONTAINEDBY".data))) :=
  ⟨c7_operator_canonicalization.2.1 ("T_METBY".data) .tMetBy (by decide),
   c7_operator_canonicalization.2.2.1 ("A_CONTAINEDBY".data) .aContainedBy (by decide)⟩

/-- C8: the emitter renders every `TimestampInstant` (and every timestamp
interval endpoint) as a single-quoted ISO string whose fractional part is
always present with exactly six digits and a trailing `Z`, even for zero
microseconds (`pad6 0` is six zero digits). -/
theorem c8_timestamp_rendering (t : PyDateTime) :
    timestampInstantStr t =
      "TIMESTAMP(".data ++ [squote] ++ formatDTCore t ++ [Char.ofNat 46] ++
        pad6 t.microsecond ++ [Char.ofNat 90, squote, Char.ofNat 41] ∧
    intervalItemStrDT t =
      [squote] ++ formatDTCore t ++ [Char.ofNat 46] ++ pad6 t.microsecond ++
        [Char.ofNat 90, squote] ∧
    (pad6 t.microsecond).length = 6 ∧
    (pad6 t.microsecond).all isDigit = true ∧
    pad6 0 = [Char.ofNat 48, Char.ofNat 48, Char.ofNat 48, Char.ofNat 48,
      Char.ofNat 48, Char.ofNat 48] := by
  refine ⟨?_, ?_, ?_, ?_, by decide⟩
  · simp [timestampInstantStr, strftimeZ, List.append_assoc]
  · simp [intervalItemStrDT, strftimeZ, List.append_assoc]
  · simp [pad6]
  · simp [pad6, isDigit_digitChar]

/-- C9: every `AndOr` node either decoder produces has at least two
arguments: the JSON decoder rejects an `and` or `or` whose `args` has fewer
than two elements, and the text builder turns a run of two or more
`OR`-joined terms (dually `AND`) into one `AndOr` node over all of them
while a run of one collapses to the child with no `AndOr` node. -/
theorem c9_andor_arity :
    (∀ xs : List JsonVal, xs.length < 2 →
      decodeBE (.obj [("op", .str "and"), ("args", .arr xs)]) = none ∧
      decodeBE (.obj [("op", .str "or"), ("args", .arr xs)]) = none) ∧
    (∀ t : Expr, orRunResult [t] = t) ∧
    (∀ t : Expr, andRunResult [t] = t) ∧
    (∀ ts : List Expr, 2 ≤ ts.length →
      orRunResult ts = .andOr .or (ts.map make_boolean_expression) ∧
      (ts.map make_boolean_expression).length = ts.length) ∧
    (∀ ts : List Expr, 2 ≤ ts.length →
      andRunResult ts = .andOr .and (ts.map make_boolean_expression) ∧
      (ts.map make_boolean_expression).length = ts.length) := by
  refine ⟨?_, fun t => rfl, fun t => rfl, ?_, ?_⟩
  · intro xs hl
    constructor
    · rw [show decodeBE (.obj [("op", .str "and"), ("args", .arr xs)]) =
          (decodeAndOrNode "and" (.arr xs)).map Expr.boolExpr from by
        simp [decodeBE, decodeBeW, asStr, decodeBoolNode]]
      cases hdl : decodeListBeW xs with
      | none => simp [decodeAndOrNode, hdl]
      | some es =>
          have hlen := decodeListBeW_length hdl
          simp [decodeAndOrNode, hdl, show ¬ (2 ≤ es.length) from by omega]
    · rw [show decodeBE (.obj [("op", .str "or"), ("args", .arr xs)]) =
          (decodeAndOrNode "or" (.arr xs)).map Expr.boolExpr from by
        simp [decodeBE, decodeBeW, asStr, decodeBoolNode]]
      cases hdl : decodeListBeW xs with
      | none => simp [decodeAndOrNode, hdl]
      | some es =>
          have hlen := decodeListBeW_length hdl
          simp [decodeAndOrNode, hdl, show ¬ (2 ≤ es.length) from by omega]
  · intro ts h
    cases ts with
    | nil => simp only [List.length_nil] at h; omega
    | cons t1 rest =>
        cases rest with
        | nil => simp only [List.length_singleton] at h; omega
        | cons t2 rest2 => exact ⟨rfl, by simp⟩
  · intro ts h
    cases ts with
    | nil => simp only [List.length_nil] at h; omega
    | cons t1 rest =>
        cases rest with
        | nil => simp only [List.length_singleton] at h; omega
        | cons t2 rest2 => exact ⟨rfl, by simp⟩

theorem c9_witness :
    decodeBE (.obj [("op", .str "and"), ("args", .arr [.bool true])]) = none ∧
    orRunResult [.boolExpr (.boolLit true), .boolExpr (.boolLit false)] =
      .andOr .or ([Expr.boolExpr (.boolLit true),
        .boolExpr (.boolLit false)].map make_boolean_expression) :=
  ⟨(c9_andor_arity.1 [.bool true] (by decide)).1,
   (c9_andor_arity.2.2.2.1
      [.boolExpr (.boolLit true), .boolExpr (.boolLit false)] (by decide)).1⟩

/-- C10: the only integer a text-built AST can contain is the `-1` planted
by the unary-minus rewrite: every integer in the JSON encoding of a
text-built AST equals `-1`; every lexed numeric token becomes a float
(`SIGNED_NUMBER`), and a float is never the integer `-1`; and the encoding
of a unary minus carries the JSON integer `-1` as its first argument. -/
theorem c10_minus_one :
    (∀ e : Expr, TextBuilt e → ∀ i ∈ intsIn e, i = -1) ∧
    (∀ f : PyFloat, SIGNED_NUMBER f = .pfloat f) ∧
    (∀ f : PyFloat, PyNum.pint (-1) ≠ .pfloat f) ∧
    (∀ x : Expr, encode (negative x) =
      .obj [("op", .str "*"), ("args", .arr [.num (.pint (-1)), encode x])]) := by
  refine ⟨fun e h => textBuilt_ints h, fun f => rfl,
    fun f hcon => PyNum.noConfusion hcon, ?_⟩
  intro x
  simp [negative, encode, ArithOp.toStr]

theorem c10_witness :
    (-1 : Int) = -1 ∧ SIGNED_NUMBER ⟨25, -1⟩ = .pfloat ⟨25, -1⟩ :=
  ⟨c10_minus_one.1 (negative (.numLit (SIGNED_NUMBER ⟨25, -1⟩)))
      (TextBuilt.negative_node (TextBuilt.signed_number ⟨25, -1⟩)) (-1)
      (by simp [intsIn, negative, SIGNED_NUMBER, encode, ArithOp.toStr,
        jsonIntsIn, jsonIntsInList, jsonIntsInKVs]),
   c10_minus_one.2.1 ⟨25, -1⟩⟩

end Pycql2
